import Mathlib

set_option autoImplicit false

/-!
Verification development for the oTree experiment-navigation bridge
(`otree/public_goods_simple/client/bridge_server.py`).

The bridge keeps five mutable dictionaries keyed by participant code
(`participant_connections`, `participant_sessions`, `participant_urls`,
`form_fields`, `participant_phases`), drives each participant through the
oTree page flow over HTTP, and republishes page changes as events on the
participant's WebSocket connection.

The embedding below models:
  * Python dictionaries as association lists (`lookupKey`, `eraseKey`,
    `pyInsert` mirror `d.get`, `del d[k]`, `d[k] = v`);
  * HTTP traffic through an oracle `net : Nat -> HttpResponse` consumed one
    response per request, with the request/sleep sequence recorded in an
    action log so that claims about which requests are made are statable;
  * `requests.Session` objects as numeric client ids, with `close()` calls
    recorded in `closedClients`;
  * parsed page bodies as the list of discovered form-field names plus an
    optional token standing for the JSON value held by the `otree-data`
    script block (pages whose block holds unparseable JSON are outside the
    model, matching the markup contract);
  * raised-and-caught Python exceptions as explicit outcome values.

WebSocket sends are assumed delivered (the source logs and swallows send
failures, so delivery failures never change bridge state).
-/

/-- Character-list prefix test (used to implement substring search without
relying on library string functions). -/
def seqStarts : List Char → List Char → Bool
  | [], _ => true
  | _ :: _, [] => false
  | a :: as, b :: bs => a == b && seqStarts as bs

/-- Character-list infix test. -/
def seqContains (pat : List Char) : List Char → Bool
  | [] => pat.isEmpty
  | c :: rest => seqStarts pat (c :: rest) || seqContains pat rest

/-- Python's `pat in s` substring test for strings. -/
def strContains (s pat : String) : Bool :=
  seqContains pat.toList s.toList

/-- Python's `s.startswith(pre)` prefix test for strings. -/
def strStarts (s pre : String) : Bool :=
  seqStarts pre.toList s.toList

/-- Python `dict.get`: first binding of the key, if any. -/
def lookupKey {α : Type} (l : List (String × α)) (k : String) : Option α :=
  match l with
  | [] => none
  | p :: rest => if p.1 == k then some p.2 else lookupKey rest k

/-- Python `del d[k]` (on a key known present): drop every binding of `k`. -/
def eraseKey {α : Type} (l : List (String × α)) (k : String) : List (String × α) :=
  l.filter (fun p => !(p.1 == k))

/-- Python `d[k] = v`: overwrite in place when the key exists, else append
(the insertion-order semantics of Python dictionaries). -/
def pyInsert {α : Type} (l : List (String × α)) (k : String) (v : α) : List (String × α) :=
  if (lookupKey l k).isSome then
    l.map (fun p => if p.1 == k then (k, v) else p)
  else
    l ++ [(k, v)]

/-- JSON scalar values carried in inbound messages and form submissions. -/
inductive JVal where
  | s (v : String)
  | i (v : Int)
  | b (v : Bool)
deriving Repr, DecidableEq

/-- A fetched page body as seen by the bridge after parsing: the `name`
attributes of the inputs under `._formfield` (in document order), and the
parsed `otree-data` script block when the page has one (represented by an
abstract token, since the bridge forwards it opaquely). -/
structure PageBody where
  formFields : List String
  otreeData : Option Nat
deriving Repr, DecidableEq

/-- An HTTP response as consumed by the bridge: status code, the `Location`
header if present, whether the `oTree-Wait-Page` header is present, and the
parsed body. -/
structure HttpResponse where
  status : Nat
  location : Option String
  waitHeader : Bool
  body : PageBody
deriving Repr, DecidableEq

/-- The `requests` library's `Response.is_redirect`: a `Location` header is
present and the status is one of the redirect statuses. -/
def HttpResponse.isRedirect (r : HttpResponse) : Bool :=
  r.location.isSome &&
    (r.status == 301 || r.status == 302 || r.status == 303 ||
     r.status == 307 || r.status == 308)

/-- The `requests` library's `raise_for_status` succeeds exactly when the
status is below 400. -/
def HttpResponse.okStatus (r : HttpResponse) : Bool :=
  r.status < 400

/-- Resolution of a `Location` header value against the oTree base URL:
`if not url.startswith("http"): url = f-string(otree_url, url)`. -/
def resolveLocation (otreeUrl loc : String) : String :=
  if strStarts loc "http" then loc else otreeUrl ++ loc

/-- Outbound WebSocket message contents produced by the `send_*` helpers. -/
inductive OutMsg where
  | phaseTransition (pid : Int) (payload : Nat) (phase : Nat) (fields : List String)
  | roundResult (payload : Nat)
  | gameOver
  | errorMsg (msg : String)
deriving Repr, DecidableEq

/-- An emitted event: the WebSocket connection id it was sent on, paired
with the message. -/
abbrev Event := Nat × OutMsg

/-- Externally visible actions of the bridge: HTTP requests (with the
form-encoded body for POSTs) and barrier-poll sleeps (in seconds). -/
inductive Act where
  | get (url : String)
  | post (url : String) (body : List (String × JVal))
  | sleepSec (n : Nat)
deriving Repr, DecidableEq

/-- The mutable registries of `OTreeBridge`, all keyed by participant code,
plus the log of closed HTTP clients (modelling `requests.Session.close`).
The `sessions` / `session_participants` dictionaries of the source are
omitted: they are only read by `get_participant_configs`, which no claim
touches. -/
structure BridgeState where
  participant_connections : List (String × Nat)
  participant_sessions : List (String × Nat)
  participant_urls : List (String × String)
  form_fields : List (String × List String)
  participant_phases : List (String × Nat)
  closedClients : List Nat
deriving Repr, DecidableEq

/-- The `requests` form encoder drops pairs whose value is `None`; a task
value of `none` models Python `None` (field absent from the task message). -/
def encodeForm (d : List (String × Option JVal)) : List (String × JVal) :=
  d.filterMap (fun p => p.2.map (fun v => (p.1, v)))

/-- The dictionary comprehension of `handle_task`:
`task_data = (f : data.get(f) for f in form_fields.get(code, []))`. -/
def buildTaskData (fields : List String) (values : List (String × JVal)) :
    List (String × Option JVal) :=
  fields.foldl (fun m f => pyInsert m f (lookupKey values f)) []

/-- The `send_phase_update` helper: an event is produced only when a
connection is registered for the participant code (the source returns
early otherwise). -/
def send_phase_update (st : BridgeState) (code : String) (pid : Int)
    (payload : Nat) (phase : Nat) (fields : List String) : List Event :=
  match lookupKey st.participant_connections code with
  | none => []
  | some ws => [(ws, OutMsg.phaseTransition pid payload phase fields)]

/-- The `send_results` helper (eventType `round-result`). -/
def send_results (st : BridgeState) (code : String) (payload : Nat) : List Event :=
  match lookupKey st.participant_connections code with
  | none => []
  | some ws => [(ws, OutMsg.roundResult payload)]

/-- The `send_game_completion` helper (eventType `game-over`). -/
def send_game_completion (st : BridgeState) (code : String) : List Event :=
  match lookupKey st.participant_connections code with
  | none => []
  | some ws => [(ws, OutMsg.gameOver)]

/-- The `participant_phases[code] += 1` statement: `none` models the
`KeyError` raised when the counter is missing. -/
def bumpPhase (st : BridgeState) (code : String) : Option (BridgeState × Nat) :=
  match lookupKey st.participant_phases code with
  | some n =>
      some ({ st with participant_phases := pyInsert st.participant_phases code (n + 1) }, n + 1)
  | none => none

/-- Python's guarded delete `if k in d: del d[k]`. -/
def condErase {α : Type} (l : List (String × α)) (k : String) : List (String × α) :=
  if (lookupKey l k).isSome then eraseKey l k else l

/-- The `cleanup_connection` coroutine: for a truthy participant code,
delete (guarded by membership tests, in source order) the connection,
HTTP client (closing it first), URL, phase and form-field entries; a
falsy code (Python `None` or the empty string) is a no-op. -/
def cleanup_connection (st : BridgeState) (pcode : Option String) : BridgeState :=
  match pcode with
  | none => st
  | some code =>
    if code == "" then st
    else
      let st1 := { st with
        participant_connections := condErase st.participant_connections code }
      let st2 :=
        match lookupKey st1.participant_sessions code with
        | some cid =>
            { st1 with participant_sessions := eraseKey st1.participant_sessions code,
                       closedClients := st1.closedClients ++ [cid] }
        | none => st1
      let st3 := { st2 with participant_urls := condErase st2.participant_urls code }
      let st4 := { st3 with participant_phases := condErase st3.participant_phases code }
      let st5 := { st4 with form_fields := condErase st4.form_fields code }
      st5

/-- Result of `submit_task_to_otree`: `none` models the `KeyError` raised
by `participant_sessions[code]` (caught by the caller); otherwise the
returned boolean, the updated state and the requests made. The function
body wraps its HTTP work in try/except and returns `False` on any
exception, so a bad status yields `(false, st)`. -/
def submit_task_to_otree (otreeUrl : String) (net : Nat → HttpResponse)
    (st : BridgeState) (code : String) (task_data : List (String × Option JVal)) :
    Option (Bool × BridgeState × List Act) :=
  match lookupKey st.participant_sessions code with
  | none => none
  | some _ =>
    match lookupKey st.participant_urls code with
    | none => some (false, st, [])
    | some contribUrl =>
      if contribUrl == "" then some (false, st, [])
      else
        let resp := net 0
        let acts := [Act.post contribUrl (encodeForm task_data)]
        if !resp.okStatus then some (false, st, acts)
        else if !resp.isRedirect then some (false, st, acts)
        else
          let waitUrl := resolveLocation otreeUrl (resp.location.getD "")
          some (true,
            { st with participant_urls := pyInsert st.participant_urls code waitUrl },
            acts)

/-- How the bridge finished one call of `navigate_experiment`. -/
inductive NavOutcome where
  | noSession
  | noUrl
  | awaitingAction
  | completed
  | stuckNoRedirect
  | timedOut
  | unexpectedResponse
  | errored
deriving Repr, DecidableEq

/-- Aggregate result of a navigation call: final registries, emitted events,
action log, number of action pages reached (branch hits that increment the
phase counter), and the outcome. -/
structure NavResult where
  state : BridgeState
  events : List Event
  acts : List Act
  actionPages : Nat
  outcome : NavOutcome
deriving Repr, DecidableEq

/-- Result of one iteration of the `for attempt in range(max_attempts)`
loop body of `navigate_experiment`: either the coroutine returns (`done`),
or the iteration ends in `continue` (`loop`) carrying the next value of the
local `current_url` and the number of oracle responses consumed. -/
inductive StepRes where
  | done (st : BridgeState) (evs : List Event) (acts : List Act)
      (actionPages : Nat) (o : NavOutcome)
  | loop (st : BridgeState) (evs : List Event) (acts : List Act)
      (nextUrl : String) (consumed : Nat)
deriving Repr, DecidableEq

/-- Action-page handling shared by the classification sites of
`navigate_experiment`: increment the phase counter (a missing counter is a
`KeyError` caught by the surrounding try/except), emit the phase event with
the payload augmented by phase number and field list, and return to await
the next task message. `evsPre` carries events already emitted earlier in
the same loop iteration. -/
def actionStep (st2 : BridgeState) (code : String) (pid : Int) (payload : Nat)
    (fields : List String) (evsPre : List Event) (acts : List Act) : StepRes :=
  match bumpPhase st2 code with
  | none => .done st2 evsPre acts 0 .errored
  | some (st3, ph) =>
      .done st3 (evsPre ++ send_phase_update st3 code pid payload ph fields) acts 1
        .awaitingAction

/-- The `elif otree_data` informational-page branch of the navigation loop:
emit a round-result event, POST an empty form to the same URL (no
`raise_for_status` here); a non-redirect answer is the stuck warning; a
redirect with a falsy `Location` continues the loop on the unchanged
`current_url`; a redirect target containing `OutOfRangeNotification` emits
game completion and returns; otherwise the target is fetched, recorded as
the participant URL, its form fields replace the discovered ones, a page
with fields and payload is an action page, and anything else continues the
loop from the target. -/
def infoBranch (otreeUrl : String) (net : Nat → HttpResponse) (code : String)
    (pid : Int) (k : Nat) (currentUrl nextUrl : String) (st2 : BridgeState)
    (payload : Nat) (acts2 : List Act) : StepRes :=
  let evs1 := send_results st2 code payload
  let contResp := net (k + 2)
  let acts3 := acts2 ++ [Act.post nextUrl []]
  if contResp.isRedirect then
    let locVal := contResp.location.getD ""
    if locVal == "" then .loop st2 evs1 acts3 currentUrl 3
    else
      let redirectUrl := resolveLocation otreeUrl locVal
      if strContains redirectUrl "OutOfRangeNotification" then
        .done st2 (evs1 ++ send_game_completion st2 code) acts3 0 .completed
      else
        let rResp := net (k + 3)
        let acts4 := acts3 ++ [Act.get redirectUrl]
        if !rResp.okStatus then .done st2 evs1 acts4 0 .errored
        else
          let st3 := { st2 with
            participant_urls := pyInsert st2.participant_urls code redirectUrl }
          let rFields := rResp.body.formFields
          let st4 := { st3 with form_fields := pyInsert st3.form_fields code rFields }
          match rResp.body.otreeData with
          | some payload2 =>
            if !rFields.isEmpty then actionStep st4 code pid payload2 rFields evs1 acts4
            else .loop st4 evs1 acts4 redirectUrl 4
          | none => .loop st4 evs1 acts4 redirectUrl 4
  else .done st2 evs1 acts3 0 .stuckNoRedirect

/-- One iteration of the `for attempt in range(max_attempts)` loop of
`navigate_experiment`, transcribed branch for branch from the source:
fetch `current_url` without following redirects; on a redirect, resolve
`Location`, fetch the target, record it as the participant URL, replace the
discovered form fields wholesale, and classify (fields and payload present
is an action page, payload alone the informational branch, no payload falls
through and the loop retries the unchanged `current_url`). A non-redirect
response with the `oTree-Wait-Page` header sleeps 2 seconds and retries the
same URL; any other response is the unexpected-response break;
`raise_for_status` failures surface as the caught-exception outcome. -/
def navIter (otreeUrl : String) (net : Nat → HttpResponse) (code : String)
    (pid : Int) (k : Nat) (currentUrl : String) (st : BridgeState) : StepRes :=
  let resp := net k
  if !resp.okStatus then .done st [] [Act.get currentUrl] 0 .errored
  else if resp.isRedirect then
    let nextUrl := resolveLocation otreeUrl (resp.location.getD "")
    let nextResp := net (k + 1)
    let acts2 := [Act.get currentUrl, Act.get nextUrl]
    if !nextResp.okStatus then .done st [] acts2 0 .errored
    else
      let st1 := { st with participant_urls := pyInsert st.participant_urls code nextUrl }
      let fields := nextResp.body.formFields
      let st2 := { st1 with form_fields := pyInsert st1.form_fields code fields }
      match nextResp.body.otreeData with
      | some payload =>
        if !fields.isEmpty then actionStep st2 code pid payload fields [] acts2
        else infoBranch otreeUrl net code pid k currentUrl nextUrl st2 payload acts2
      | none => .loop st2 [] acts2 currentUrl 2
  else if resp.waitHeader then
    .loop st [] [Act.get currentUrl, Act.sleepSec 2] currentUrl 1
  else
    .done st [] [Act.get currentUrl] 0 .unexpectedResponse

/-- The bounded navigation loop (`max_attempts` iterations of `navIter`);
running out of iterations is the timed-out warning of the source. -/
def navStepLoop (otreeUrl : String) (net : Nat → HttpResponse) (code : String)
    (pid : Int) : Nat → Nat → String → BridgeState → NavResult
  | 0, _, _, st => ⟨st, [], [], 0, .timedOut⟩
  | fuel + 1, k, currentUrl, st =>
    match navIter otreeUrl net code pid k currentUrl st with
    | .done st' evs acts ap o => ⟨st', evs, acts, ap, o⟩
    | .loop st' evs acts nextUrl c =>
      let r := navStepLoop otreeUrl net code pid fuel (k + c) nextUrl st'
      ⟨r.state, evs ++ r.events, acts ++ r.acts, r.actionPages, r.outcome⟩

/-- The source's `max_attempts = 30`. -/
def max_attempts : Nat := 30

/-- The `navigate_experiment` coroutine: guard clauses for a missing HTTP
session or missing/falsy current URL, then the bounded loop. -/
def navigate_experiment (otreeUrl : String) (net : Nat → HttpResponse)
    (st : BridgeState) (code : String) (pid : Int) : NavResult :=
  match lookupKey st.participant_sessions code with
  | none => ⟨st, [], [], 0, .noSession⟩
  | some _ =>
    match lookupKey st.participant_urls code with
    | none => ⟨st, [], [], 0, .noUrl⟩
    | some currentUrl =>
      if currentUrl == "" then ⟨st, [], [], 0, .noUrl⟩
      else navStepLoop otreeUrl net code pid max_attempts 0 currentUrl st

/-- Result of `continue_to_next_page` / `initialize_participant`:
`raised = true` models an exception escaping the call. -/
structure CtnResult where
  state : BridgeState
  events : List Event
  acts : List Act
  actionPages : Nat
  raised : Bool
deriving Repr, DecidableEq

/-- The `continue_to_next_page` coroutine: GET the given URL without
following redirects (a non-redirect answer raises), resolve `Location`,
GET the target, record it as the participant's URL, replace the form
fields wholesale, and when the page has both fields and a payload bump
the phase counter and emit a phase event; any other page completes
silently. -/
def continue_to_next_page (otreeUrl : String) (net : Nat → HttpResponse)
    (st : BridgeState) (code : String) (pid : Int) (url : String) : CtnResult :=
  let resp := net 0
  if !resp.okStatus then ⟨st, [], [Act.get url], 0, true⟩
  else if !resp.isRedirect then ⟨st, [], [Act.get url], 0, true⟩
  else
    let taskUrl := resolveLocation otreeUrl (resp.location.getD "")
    let resp2 := net 1
    let acts2 := [Act.get url, Act.get taskUrl]
    if !resp2.okStatus then ⟨st, [], acts2, 0, true⟩
    else
      let st1 := { st with participant_urls := pyInsert st.participant_urls code taskUrl }
      let fields := resp2.body.formFields
      let st2 := { st1 with form_fields := pyInsert st1.form_fields code fields }
      match resp2.body.otreeData with
      | some payload =>
        if !fields.isEmpty then
          match bumpPhase st2 code with
          | none => ⟨st2, [], acts2, 0, true⟩
          | some (st3, ph) =>
              ⟨st3, send_phase_update st3 code pid payload ph fields, acts2, 1, false⟩
        else ⟨st2, [], acts2, 0, false⟩
      | none => ⟨st2, [], acts2, 0, false⟩

/-- The `initialize_participant` coroutine: raises when no HTTP session is
registered, else continues to the next page from the initialization URL. -/
def initialize_participant (otreeUrl : String) (net : Nat → HttpResponse)
    (st : BridgeState) (code : String) (pid : Int) : CtnResult :=
  match lookupKey st.participant_sessions code with
  | none => ⟨st, [], [], 0, true⟩
  | some _ =>
      continue_to_next_page otreeUrl net st code pid
        (otreeUrl ++ "/InitializeParticipant/" ++ code)

/-- A join message after JSON parsing: the values of `participant_code`
and `participant_id` when present (`dict.get` semantics). -/
structure JoinMsg where
  code : Option String
  pid : Option Int
deriving Repr, DecidableEq

/-- Result of `handle_join`: final state, events, the returned participant
code (the empty string on any failure), action log and action pages. -/
structure JoinResult where
  state : BridgeState
  events : List Event
  code : String
  acts : List Act
  actionPages : Nat
deriving Repr, DecidableEq

/-- The `handle_join` coroutine: validate the message, register the
connection, create and register a fresh HTTP client (`clientId`),
initialize the phase counter to 0, then initialize the participant. On an
exception from initialization, send an error and delete the connection and
client registry entries (guarded), returning the empty string; note that
the phase-counter entry is not deleted and the client is not closed. -/
def handle_join (otreeUrl : String) (net : Nat → HttpResponse) (st : BridgeState)
    (ws : Nat) (clientId : Nat) (msg : JoinMsg) : JoinResult :=
  match msg.code, msg.pid with
  | some code, some pid =>
    if code == "" then
      ⟨st, [(ws, OutMsg.errorMsg "Participant code and ID are required for join message.")],
        "", [], 0⟩
    else
      let st1 := { st with
        participant_connections := pyInsert st.participant_connections code ws }
      let st2 := { st1 with
        participant_sessions := pyInsert st1.participant_sessions code clientId }
      let st3 := { st2 with
        participant_phases := pyInsert st2.participant_phases code 0 }
      let r := initialize_participant otreeUrl net st3 code pid
      if r.raised then
        let s := r.state
        let s1 :=
          if (lookupKey s.participant_connections code).isSome then
            { s with participant_connections := eraseKey s.participant_connections code }
          else s
        let s2 :=
          if (lookupKey s1.participant_sessions code).isSome then
            { s1 with participant_sessions := eraseKey s1.participant_sessions code }
          else s1
        ⟨s2, r.events ++ [(ws, OutMsg.errorMsg "Error during join process")], "",
          r.acts, r.actionPages⟩
      else ⟨r.state, r.events, code, r.acts, r.actionPages⟩
  | _, _ =>
      ⟨st, [(ws, OutMsg.errorMsg "Participant code and ID are required for join message.")],
        "", [], 0⟩

/-- A non-join message after JSON parsing: the `participant_code` and
`participant_id` values when present, and the remaining key/value pairs
(the task's field values). -/
structure TaskMsg where
  code : Option String
  pid : Option Int
  values : List (String × JVal)
deriving Repr, DecidableEq

/-- Shift an HTTP oracle past already-consumed responses. -/
def shiftNet (net : Nat → HttpResponse) (base : Nat) : Nat → HttpResponse :=
  fun i => net (base + i)

/-- The `handle_task` coroutine: `none` models the `KeyError` raised by the
bracket accesses `data` at `participant_code` / `participant_id` when the
key is missing (which escapes to the connection handler); otherwise the
task data is projected through the current form fields, validated, and
submitted; a successful submission resumes navigation (using the oracle
from index 1, the POST of the submission having consumed index 0). -/
def handle_task (otreeUrl : String) (net : Nat → HttpResponse) (st : BridgeState)
    (ws : Nat) (msg : TaskMsg) : Option (BridgeState × List Event × List Act × Nat) :=
  match msg.code, msg.pid with
  | some code, some pid =>
    let fields := (lookupKey st.form_fields code).getD []
    let task_data := buildTaskData fields msg.values
    if code == "" then
      some (st, [(ws, OutMsg.errorMsg "Missing required fields for task")], [], 0)
    else
      match submit_task_to_otree otreeUrl net st code task_data with
      | none =>
          some (st, [(ws, OutMsg.errorMsg "Error submitting task")], [], 0)
      | some (true, st1, acts) =>
          let r := navigate_experiment otreeUrl (shiftNet net 1) st1 code pid
          some (r.state, r.events, acts ++ r.acts, r.actionPages)
      | some (false, st1, acts) =>
          some (st1, [(ws, OutMsg.errorMsg "Failed to submit task")], acts, 0)
  | _, _ => none

/-- An inbound WebSocket frame: a parsed join message (with the fresh
client id its `requests.Session()` call would allocate), a parsed non-join
message, or an unparseable frame. Each parsed message carries the HTTP
oracle describing the upstream server's behaviour while it is handled. -/
inductive InMsg where
  | joinMsg (m : JoinMsg) (clientId : Nat) (net : Nat → HttpResponse)
  | taskMsg (m : TaskMsg) (net : Nat → HttpResponse)
  | badJson

/-- The `process_message` coroutine: joins go to `handle_join` (whose
returned code is the result), everything else goes to `handle_task` with
the result `data.get("participant_code")`; `none` models an exception
escaping to `handle_websocket`. -/
def process_message (otreeUrl : String) (st : BridgeState) (ws : Nat) :
    InMsg → Option (BridgeState × List Event × String)
  | .joinMsg m clientId net =>
      let r := handle_join otreeUrl net st ws clientId m
      some (r.state, r.events, r.code)
  | .taskMsg m net =>
      (handle_task otreeUrl net st ws m).map
        (fun r => (r.1, r.2.1, m.code.getD ""))
  | .badJson => none

/-- One turn of the message loop in `handle_websocket`: unparseable JSON
sends an error and leaves the remembered participant code unchanged; a
message whose processing raises sends an error and leaves it unchanged; a
processed message overwrites it with the returned code. -/
def wsStep (otreeUrl : String) (ws : Nat) :
    BridgeState × List Event × Option String → InMsg →
    BridgeState × List Event × Option String
  | (st, evs, last), m =>
    match m with
    | .badJson => (st, evs ++ [(ws, OutMsg.errorMsg "Invalid JSON")], last)
    | _ =>
      match process_message otreeUrl st ws m with
      | some (st1, evs1, c) => (st1, evs ++ evs1, some c)
      | none => (st, evs ++ [(ws, OutMsg.errorMsg "Error processing message")], last)

/-- The `handle_websocket` coroutine over a finite connection: fold the
message loop over the frames, then (in the `finally` block) clean up the
connection for the remembered participant code. Returns the state after
cleanup, all emitted events, and the cleanup target. -/
def handle_websocket (otreeUrl : String) (st : BridgeState) (ws : Nat)
    (msgs : List InMsg) : BridgeState × List Event × Option String :=
  let r := msgs.foldl (wsStep otreeUrl ws) (st, [], none)
  (cleanup_connection r.1 r.2.2, r.2.1, r.2.2)

/-- Phase numbers carried by the phase-transition events of an event list,
in emission order. -/
def phaseNums (evs : List Event) : List Nat :=
  evs.filterMap (fun e =>
    match e.2 with
    | OutMsg.phaseTransition _ _ ph _ => some ph
    | _ => none)

/-- Number of game-over events in an event list. -/
def gameOverCount (evs : List Event) : Nat :=
  (evs.filter (fun e => e.2 == OutMsg.gameOver)).length

/-- One externally triggered step of a joined participant's session: either
a direct navigation call or an inbound task message (with field values)
for that participant, each with the oracle describing the upstream server
during the step. -/
inductive SessionOp where
  | navOp (pid : Int) (net : Nat → HttpResponse)
  | taskOp (pid : Int) (values : List (String × JVal)) (net : Nat → HttpResponse)

/-- Run one session step for the participant `code`. -/
def runOp (otreeUrl : String) (ws : Nat) (code : String) (st : BridgeState) :
    SessionOp → BridgeState × List Event × Nat
  | .navOp pid net =>
      let r := navigate_experiment otreeUrl net st code pid
      (r.state, r.events, r.actionPages)
  | .taskOp pid values net =>
      match handle_task otreeUrl net st ws ⟨some code, some pid, values⟩ with
      | some r => (r.1, r.2.1, r.2.2.2)
      | none => (st, [], 0)

/-- Run a list of session steps for the participant `code`, collecting the
events and the total number of action pages reached. -/
def runTrace (otreeUrl : String) (ws : Nat) (code : String) :
    BridgeState → List SessionOp → BridgeState × List Event × Nat
  | st, [] => (st, [], 0)
  | st, op :: rest =>
    let r1 := runOp otreeUrl ws code st op
    let r2 := runTrace otreeUrl ws code r1.1 rest
    (r2.1, r1.2.1 ++ r2.2.1, r1.2.2 + r2.2.2)

/-- State component of a loop-iteration result. -/
def StepRes.stateOf : StepRes → BridgeState
  | .done st _ _ _ _ => st
  | .loop st _ _ _ _ => st

/-- Events component of a loop-iteration result. -/
def StepRes.evsOf : StepRes → List Event
  | .done _ evs _ _ _ => evs
  | .loop _ evs _ _ _ => evs

/-- Action pages reached within a loop-iteration result (`continue`
branches never reach one). -/
def StepRes.apOf : StepRes → Nat
  | .done _ _ _ ap _ => ap
  | .loop _ _ _ _ _ => 0

/-- Phase-transition events paired with the field list they announce, in
emission order. -/
def phaseFieldPairs (evs : List Event) : List (Nat × List String) :=
  evs.filterMap (fun e =>
    match e.2 with
    | OutMsg.phaseTransition _ _ ph fields => some (ph, fields)
    | _ => none)

/-- Bookkeeping invariant tying a loop-iteration result to the phase
counter value `n` it started from: the counter advances by exactly the
number of action pages reached (at most one per iteration), any phase
event emitted carries the new counter value, and the iteration touches
neither the connection registry, the client registry, nor the closed-client
log. -/
def StepInv (conns sess : List (String × Nat)) (closed : List Nat)
    (code : String) (n : Nat) (r : StepRes) : Prop :=
  lookupKey r.stateOf.participant_phases code = some (n + r.apOf) ∧
  r.apOf ≤ 1 ∧
  phaseNums r.evsOf = (if r.apOf = 1 then [n + 1] else []) ∧
  r.stateOf.participant_connections = conns ∧
  r.stateOf.participant_sessions = sess ∧
  r.stateOf.closedClients = closed ∧
  (∀ q ∈ phaseFieldPairs r.evsOf,
    lookupKey r.stateOf.form_fields code = some q.2)

/-- The loop-level bookkeeping invariant: one `navigate_experiment` call
advances the phase counter by exactly the number of action pages it
reaches (at most one, since reaching one suspends navigation), emits
phase-transition events carrying exactly the new counter value, and leaves
the connection registry, client registry and closed-client log untouched. -/
def NavInv (conns sess : List (String × Nat)) (closed : List Nat)
    (code : String) (n : Nat) (r : NavResult) : Prop :=
  lookupKey r.state.participant_phases code = some (n + r.actionPages) ∧
  r.actionPages ≤ 1 ∧
  phaseNums r.events = (if r.actionPages = 1 then [n + 1] else []) ∧
  r.state.participant_connections = conns ∧
  r.state.participant_sessions = sess ∧
  r.state.closedClients = closed ∧
  (∀ q ∈ phaseFieldPairs r.events, lookupKey r.state.form_fields code = some q.2)

/-- Bookkeeping invariant for `continue_to_next_page`: same counter/event
discipline as the navigation loop, plus the fact that a raised exception
emits nothing and reaches no action page. -/
def CtnInv (conns sess : List (String × Nat)) (closed : List Nat)
    (code : String) (n : Nat) (r : CtnResult) : Prop :=
  lookupKey r.state.participant_phases code = some (n + r.actionPages) ∧
  r.actionPages ≤ 1 ∧
  phaseNums r.events = (if r.actionPages = 1 then [n + 1] else []) ∧
  r.state.participant_connections = conns ∧
  r.state.participant_sessions = sess ∧
  r.state.closedClients = closed ∧
  (r.raised = true → r.events = [] ∧ r.actionPages = 0)

/-- An HTTP 200 page response carrying the given form fields and payload. -/
def pageResp (fields : List String) (data : Option Nat) : HttpResponse :=
  ⟨200, none, false, ⟨fields, data⟩⟩

/-- An HTTP 302 redirect response. -/
def redirectResp (loc : String) : HttpResponse :=
  ⟨302, some loc, false, ⟨[], none⟩⟩

/-- An HTTP 200 response carrying the oTree wait-page marker header. -/
def waitResp : HttpResponse :=
  ⟨200, none, true, ⟨[], none⟩⟩

/-- Oracle for a join: a redirect, then an action page with one field. -/
def netJoinA : Nat → HttpResponse := fun k =>
  if k == 0 then redirectResp "/p1" else pageResp ["contribution"] (some 7)

/-- Oracle for a task: the submission redirect, then a redirect to a second
action page. -/
def netTaskA : Nat → HttpResponse := fun k =>
  if k == 0 then redirectResp "/w"
  else if k == 1 then redirectResp "/p2"
  else pageResp ["contribution"] (some 8)

/-- The empty bridge registry. -/
def emptyBridge : BridgeState := ⟨[], [], [], [], [], []⟩

/-- A populated one-participant registry used as concrete test input. -/
def sampleState : BridgeState :=
  ⟨[("A", 5)], [("A", 9)], [("A", "u")], [("A", ["f"])], [("A", 2)], []⟩

/-- The all-barrier oracle. -/
def netWait : Nat → HttpResponse := fun _ => waitResp

/-- Actions component of a loop-iteration result. -/
def StepRes.actsOf : StepRes → List Act
  | .done _ _ acts _ _ => acts
  | .loop _ _ acts _ _ => acts

/-- Oracle refuting the hard-failure clause of the classification claim:
the first redirect leads to a page with form fields but no payload
(unrecognized); the loop retries and the second attempt reaches an action
page. -/
def netC2 : Nat → HttpResponse := fun k =>
  if k == 0 then redirectResp "/p1"
  else if k == 1 then pageResp ["x"] none
  else if k == 2 then redirectResp "/p2"
  else pageResp ["x"] (some 5)

/-- Oracle for the C8 counterexample: the first redirect target is the
terminal URL itself, whose page carries no payload; the loop then retries
and reaches an ordinary action page. -/
def netC8 : Nat → HttpResponse := fun k =>
  if k == 0 then redirectResp "/OutOfRangeNotification"
  else if k == 1 then pageResp [] none
  else if k == 2 then redirectResp "/p2"
  else pageResp ["x"] (some 5)

/-- Oracle for the C8 witness: an informational page whose self-advance
redirect points at the terminal URL. -/
def netC8term : Nat → HttpResponse := fun k =>
  if k == 0 then redirectResp "/w"
  else if k == 1 then pageResp [] (some 3)
  else redirectResp "/OutOfRangeNotification"

/-- The always-failing upstream oracle (HTTP 500). -/
def netFail : Nat → HttpResponse := fun _ => ⟨500, none, false, ⟨[], none⟩⟩

theorem lookup_nil {α : Type} (k : String) : lookupKey ([] : List (String × α)) k = none := rfl

theorem lookup_append {α : Type} (l m : List (String × α)) (k : String) :
    lookupKey (l ++ m) k =
      (match lookupKey l k with
       | some v => some v
       | none => lookupKey m k) := by
  induction l with
  | nil => simp [lookupKey]
  | cons p rest ih =>
      simp only [List.cons_append, lookupKey]
      by_cases h : p.1 = k
      · simp [h]
      · rw [if_neg (by simp [h]), if_neg (by simp [h])]
        exact ih

theorem lookup_map_set_self {α : Type} (l : List (String × α)) (k : String) (v : α) :
    lookupKey (l.map (fun p => if p.1 == k then (k, v) else p)) k =
      (lookupKey l k).map (fun _ => v) := by
  induction l with
  | nil => simp [lookupKey]
  | cons p rest ih =>
      by_cases h : p.1 = k
      · simp [lookupKey, h]
      · simp only [List.map_cons]
        rw [if_neg (by simp [h])]
        simp only [lookupKey]
        rw [if_neg (by simp [h]), if_neg (by simp [h])]
        exact ih

theorem lookup_map_set_other {α : Type} (l : List (String × α)) (k k' : String) (v : α)
    (h : k' ≠ k) :
    lookupKey (l.map (fun p => if p.1 == k then (k, v) else p)) k' = lookupKey l k' := by
  induction l with
  | nil => simp [lookupKey]
  | cons p rest ih =>
      by_cases hp : p.1 = k
      · simp only [List.map_cons]
        rw [if_pos (by simp [hp])]
        simp only [lookupKey]
        rw [if_neg (by simp; exact fun hh => h hh.symm),
            if_neg (by simp [hp]; exact fun hh => h hh.symm)]
        exact ih
      · simp only [List.map_cons]
        rw [if_neg (by simp [hp])]
        simp only [lookupKey]
        by_cases hq : p.1 = k'
        · simp [hq]
        · rw [if_neg (by simp [hq]), if_neg (by simp [hq])]
          exact ih

theorem lookup_pyInsert_self {α : Type} (l : List (String × α)) (k : String) (v : α) :
    lookupKey (pyInsert l k v) k = some v := by
  unfold pyInsert
  split
  · rename_i hs
    rw [lookup_map_set_self]
    rcases Option.isSome_iff_exists.mp hs with ⟨w, hw⟩
    simp [hw]
  · rename_i hs
    rw [lookup_append]
    have hn : lookupKey l k = none := by
      cases hl : lookupKey l k with
      | none => rfl
      | some w => exact absurd (by simp [hl]) hs
    simp [hn, lookupKey]

theorem lookup_pyInsert_other {α : Type} (l : List (String × α)) (k k' : String) (v : α)
    (h : k' ≠ k) : lookupKey (pyInsert l k v) k' = lookupKey l k' := by
  unfold pyInsert
  split
  · exact lookup_map_set_other l k k' v h
  · rw [lookup_append]
    cases hl : lookupKey l k' with
    | none =>
        simp only [hl, lookupKey]
        rw [if_neg (by simp; exact fun hh => h hh.symm)]
    | some w => simp [hl]

theorem lookup_eraseKey_self {α : Type} (l : List (String × α)) (k : String) :
    lookupKey (eraseKey l k) k = none := by
  induction l with
  | nil => rfl
  | cons p rest ih =>
      unfold eraseKey at ih ⊢
      by_cases h : p.1 = k
      · simp only [List.filter_cons]
        rw [if_neg (by simp [h])]
        exact ih
      · simp only [List.filter_cons]
        rw [if_pos (by simp [h])]
        simp only [lookupKey]
        rw [if_neg (by simp [h])]
        exact ih

theorem lookup_eraseKey_other {α : Type} (l : List (String × α)) (k k' : String)
    (h : k' ≠ k) : lookupKey (eraseKey l k) k' = lookupKey l k' := by
  induction l with
  | nil => rfl
  | cons p rest ih =>
      unfold eraseKey at ih ⊢
      by_cases hp : p.1 = k
      · simp only [List.filter_cons]
        rw [if_neg (by simp [hp])]
        rw [ih]
        simp only [lookupKey]
        rw [if_neg (by simp [hp]; exact fun hh => h hh.symm)]
      · simp only [List.filter_cons]
        rw [if_pos (by simp [hp])]
        simp only [lookupKey]
        by_cases hq : p.1 = k'
        · simp [hq]
        · rw [if_neg (by simp [hq]), if_neg (by simp [hq])]
          exact ih

theorem eraseKey_of_lookup_none {α : Type} (l : List (String × α)) (k : String)
    (h : lookupKey l k = none) : eraseKey l k = l := by
  induction l with
  | nil => rfl
  | cons p rest ih =>
      unfold lookupKey at h
      by_cases hp : p.1 = k
      · rw [if_pos (by simp [hp])] at h
        exact absurd h (by simp)
      · rw [if_neg (by simp [hp])] at h
        unfold eraseKey at ih ⊢
        simp only [List.filter_cons]
        rw [if_pos (by simp [hp])]
        rw [ih h]

theorem phaseNums_append (a b : List Event) :
    phaseNums (a ++ b) = phaseNums a ++ phaseNums b := by
  simp [phaseNums]

theorem phaseNums_send_results (st : BridgeState) (code : String) (p : Nat) :
    phaseNums (send_results st code p) = [] := by
  unfold send_results
  cases lookupKey st.participant_connections code <;> simp [phaseNums]

theorem phaseNums_send_game_completion (st : BridgeState) (code : String) :
    phaseNums (send_game_completion st code) = [] := by
  unfold send_game_completion
  cases lookupKey st.participant_connections code <;> simp [phaseNums]

theorem phaseNums_send_phase_update (st : BridgeState) (code : String) (pid : Int)
    (p ph : Nat) (fields : List String) :
    phaseNums (send_phase_update st code pid p ph fields) =
      (if (lookupKey st.participant_connections code).isSome then [ph] else []) := by
  unfold send_phase_update
  cases lookupKey st.participant_connections code <;> simp [phaseNums]

theorem phaseNums_eq_map (evs : List Event) :
    phaseNums evs = (phaseFieldPairs evs).map Prod.fst := by
  induction evs with
  | nil => rfl
  | cons e rest ih =>
      obtain ⟨c, m⟩ := e
      cases m <;> simp [phaseNums, phaseFieldPairs] at ih ⊢ <;> exact ih

theorem phaseFieldPairs_append (a b : List Event) :
    phaseFieldPairs (a ++ b) = phaseFieldPairs a ++ phaseFieldPairs b := by
  simp [phaseFieldPairs]

theorem phaseFieldPairs_send_results (st : BridgeState) (code : String) (p : Nat) :
    phaseFieldPairs (send_results st code p) = [] := by
  unfold send_results
  cases lookupKey st.participant_connections code <;> simp [phaseFieldPairs]

theorem phaseFieldPairs_send_game_completion (st : BridgeState) (code : String) :
    phaseFieldPairs (send_game_completion st code) = [] := by
  unfold send_game_completion
  cases lookupKey st.participant_connections code <;> simp [phaseFieldPairs]

theorem phaseFieldPairs_send_phase_update (st : BridgeState) (code : String)
    (pid : Int) (p ph : Nat) (fields : List String) :
    phaseFieldPairs (send_phase_update st code pid p ph fields) =
      (if (lookupKey st.participant_connections code).isSome then [(ph, fields)]
       else []) := by
  unfold send_phase_update
  cases lookupKey st.participant_connections code <;> simp [phaseFieldPairs]

theorem actionStep_inv (st2 : BridgeState) (conns sess : List (String × Nat))
    (closed : List Nat) (code : String) (pid : Int)
    (payload : Nat) (fields : List String) (evsPre : List Event) (acts : List Act)
    (n w : Nat)
    (hcs : st2.participant_connections = conns)
    (hss : st2.participant_sessions = sess)
    (hcc : st2.closedClients = closed)
    (hph : lookupKey st2.participant_phases code = some n)
    (hcon : lookupKey st2.participant_connections code = some w)
    (hff : lookupKey st2.form_fields code = some fields)
    (hpre : phaseFieldPairs evsPre = []) :
    StepInv conns sess closed code n
      (actionStep st2 code pid payload fields evsPre acts) := by
  have hcon2 : lookupKey conns code = some w := hcs ▸ hcon
  have hpreN : phaseNums evsPre = [] := by
    rw [phaseNums_eq_map, hpre]
    rfl
  unfold actionStep bumpPhase
  rw [hph]
  refine ⟨?_, ?_, ?_, ?_, ?_, ?_, ?_⟩ <;>
    simp [StepRes.stateOf, StepRes.evsOf, StepRes.apOf, lookup_pyInsert_self,
      phaseNums_append, hpre, hpreN, phaseNums_send_phase_update,
      phaseFieldPairs_append, phaseFieldPairs_send_phase_update, hff,
      hcon, hcon2, hcs, hss, hcc]

theorem infoBranch_inv (otreeUrl : String) (net : Nat → HttpResponse) (code : String)
    (pid : Int) (k : Nat) (cu nu : String) (st2 : BridgeState) (payload : Nat)
    (acts2 : List Act) (conns sess : List (String × Nat)) (closed : List Nat)
    (n w : Nat)
    (hcs : st2.participant_connections = conns)
    (hss : st2.participant_sessions = sess)
    (hcc : st2.closedClients = closed)
    (hph : lookupKey st2.participant_phases code = some n)
    (hcon : lookupKey st2.participant_connections code = some w) :
    StepInv conns sess closed code n
      (infoBranch otreeUrl net code pid k cu nu st2 payload acts2) := by
  unfold infoBranch
  dsimp only
  split_ifs with h1 h2 h3 h4 h5
  all_goals try cases hdata : (net (k + 3)).body.otreeData
  all_goals try dsimp only
  all_goals try (refine ⟨?_, ?_, ?_, ?_, ?_, ?_, ?_⟩ <;>
    (simp [StepRes.stateOf, StepRes.evsOf, StepRes.apOf, hph, hcs, hss, hcc,
      phaseNums_append, phaseNums_send_results, phaseNums_send_game_completion,
      phaseFieldPairs_append, phaseFieldPairs_send_results,
      phaseFieldPairs_send_game_completion]; done))
  all_goals
    refine actionStep_inv _ _ _ _ code pid _ _ _ _ n w ?_ ?_ ?_ ?_ ?_ ?_ ?_
  all_goals
    first
      | exact hcs
      | exact hss
      | exact hcc
      | exact hph
      | exact hcon
      | exact lookup_pyInsert_self _ _ _
      | exact phaseFieldPairs_send_results _ _ _

set_option maxHeartbeats 1000000 in
theorem navIter_inv (otreeUrl : String) (net : Nat → HttpResponse) (code : String)
    (pid : Int) (k : Nat) (u : String) (st : BridgeState)
    (conns sess : List (String × Nat)) (closed : List Nat) (n w : Nat)
    (hcs : st.participant_connections = conns)
    (hss : st.participant_sessions = sess)
    (hcc : st.closedClients = closed)
    (hph : lookupKey st.participant_phases code = some n)
    (hcon : lookupKey st.participant_connections code = some w) :
    StepInv conns sess closed code n (navIter otreeUrl net code pid k u st) := by
  unfold navIter
  dsimp only
  split_ifs with h1 h2 h3 h4 h5
  all_goals try cases hdata : (net (k + 1)).body.otreeData
  all_goals try dsimp only
  all_goals try (refine ⟨?_, ?_, ?_, ?_, ?_, ?_, ?_⟩ <;>
    (simp [StepRes.stateOf, StepRes.evsOf, StepRes.apOf, hph, hcs, hss, hcc,
      phaseNums, phaseFieldPairs]; done))
  · refine actionStep_inv _ _ _ _ code pid _ _ _ _ n w ?_ ?_ ?_ ?_ ?_ ?_ ?_ <;>
      first
        | exact hcs
        | exact hss
        | exact hcc
        | exact hph
        | exact hcon
        | exact lookup_pyInsert_self _ _ _
        | rfl
  · refine infoBranch_inv otreeUrl net code pid k u _ _ _ _ _ _ _ n w ?_ ?_ ?_ ?_ ?_ <;>
      first
        | exact hcs
        | exact hss
        | exact hcc
        | exact hph
        | exact hcon

theorem navStepLoop_inv (otreeUrl : String) (net : Nat → HttpResponse) (code : String)
    (pid : Int) :
    ∀ (fuel k : Nat) (u : String) (st : BridgeState)
      (conns sess : List (String × Nat)) (closed : List Nat) (n w : Nat),
      st.participant_connections = conns →
      st.participant_sessions = sess →
      st.closedClients = closed →
      lookupKey st.participant_phases code = some n →
      lookupKey st.participant_connections code = some w →
      NavInv conns sess closed code n (navStepLoop otreeUrl net code pid fuel k u st)
  | 0, k, u, st, conns, sess, closed, n, w, hcs, hss, hcc, hph, hcon => by
      subst hcs hss hcc
      simp [navStepLoop, NavInv, hph, phaseNums, phaseFieldPairs]
  | fuel + 1, k, u, st, conns, sess, closed, n, w, hcs, hss, hcc, hph, hcon => by
      have h := navIter_inv otreeUrl net code pid k u st conns sess closed n w
        hcs hss hcc hph hcon
      cases hit : navIter otreeUrl net code pid k u st with
      | done st1 evs acts ap o =>
          rw [hit] at h
          simp only [StepInv, StepRes.stateOf, StepRes.evsOf, StepRes.apOf] at h
          simp only [navStepLoop, hit, NavInv]
          exact h
      | loop st1 evs acts nu c =>
          rw [hit] at h
          simp only [StepInv, StepRes.stateOf, StepRes.evsOf, StepRes.apOf,
            Nat.add_zero] at h
          obtain ⟨h1, _, h3, h4, h5, h6, h7⟩ := h
          have h3n : phaseNums evs = [] := by simpa using h3
          have h3p : phaseFieldPairs evs = [] := by
            have hm := phaseNums_eq_map evs
            rw [h3n] at hm
            exact (List.map_eq_nil.mp hm.symm)
          have hIH := navStepLoop_inv otreeUrl net code pid fuel (k + c) nu st1
            conns sess closed n w h4 h5 h6 h1 (h4 ▸ (hcs ▸ hcon))
          obtain ⟨g1, g2, g3, g4, g5, g6, g7⟩ := hIH
          simp only [navStepLoop, hit, NavInv]
          refine ⟨g1, g2, ?_, g4, g5, g6, ?_⟩
          · rw [phaseNums_append, h3n]
            simpa using g3
          · intro q hq
            rw [phaseFieldPairs_append, h3p, List.nil_append] at hq
            exact g7 q hq

theorem navigate_experiment_inv (otreeUrl : String) (net : Nat → HttpResponse)
    (st : BridgeState) (code : String) (pid : Int)
    (conns sess : List (String × Nat)) (closed : List Nat) (n w : Nat)
    (hcs : st.participant_connections = conns)
    (hss : st.participant_sessions = sess)
    (hcc : st.closedClients = closed)
    (hph : lookupKey st.participant_phases code = some n)
    (hcon : lookupKey st.participant_connections code = some w) :
    NavInv conns sess closed code n (navigate_experiment otreeUrl net st code pid) := by
  unfold navigate_experiment
  cases hs : lookupKey st.participant_sessions code with
  | none => subst hcs hss hcc; simp [NavInv, hph, phaseNums, phaseFieldPairs]
  | some cid =>
      cases hu : lookupKey st.participant_urls code with
      | none => subst hcs hss hcc; simp [NavInv, hph, phaseNums, phaseFieldPairs]
      | some cu =>
          dsimp only
          split_ifs with hcu
          · subst hcs hss hcc; simp [NavInv, hph, phaseNums, phaseFieldPairs]
          · exact navStepLoop_inv otreeUrl net code pid max_attempts 0 cu st
              conns sess closed n w hcs hss hcc hph hcon

theorem submit_preserves (otreeUrl : String) (net : Nat → HttpResponse)
    (st : BridgeState) (code : String) (td : List (String × Option JVal))
    (b : Bool) (st1 : BridgeState) (acts : List Act)
    (h : submit_task_to_otree otreeUrl net st code td = some (b, st1, acts)) :
    st1.participant_phases = st.participant_phases ∧
    st1.participant_connections = st.participant_connections ∧
    st1.participant_sessions = st.participant_sessions ∧
    st1.closedClients = st.closedClients ∧
    st1.form_fields = st.form_fields := by
  unfold submit_task_to_otree at h
  cases hs : lookupKey st.participant_sessions code with
  | none => rw [hs] at h; exact Option.noConfusion h
  | some cid =>
      rw [hs] at h
      cases hu : lookupKey st.participant_urls code with
      | none =>
          rw [hu] at h
          simp only [Option.some.injEq, Prod.mk.injEq] at h
          obtain ⟨_, rfl, _⟩ := h
          exact ⟨rfl, rfl, rfl, rfl, rfl⟩
      | some cu =>
          rw [hu] at h
          dsimp only at h
          split_ifs at h
          all_goals simp only [Option.some.injEq, Prod.mk.injEq] at h
          all_goals obtain ⟨_, rfl, _⟩ := h
          all_goals exact ⟨rfl, rfl, rfl, rfl, rfl⟩

theorem runOp_inv (otreeUrl : String) (ws : Nat) (code : String) (st : BridgeState)
    (op : SessionOp) (conns sess : List (String × Nat)) (closed : List Nat) (n w : Nat)
    (hcs : st.participant_connections = conns)
    (hss : st.participant_sessions = sess)
    (hcc : st.closedClients = closed)
    (hph : lookupKey st.participant_phases code = some n)
    (hcon : lookupKey st.participant_connections code = some w) :
    lookupKey (runOp otreeUrl ws code st op).1.participant_phases code =
        some (n + (runOp otreeUrl ws code st op).2.2) ∧
    (runOp otreeUrl ws code st op).2.2 ≤ 1 ∧
    phaseNums (runOp otreeUrl ws code st op).2.1 =
        (if (runOp otreeUrl ws code st op).2.2 = 1 then [n + 1] else []) ∧
    (runOp otreeUrl ws code st op).1.participant_connections = conns ∧
    (runOp otreeUrl ws code st op).1.participant_sessions = sess ∧
    (runOp otreeUrl ws code st op).1.closedClients = closed ∧
    (∀ q ∈ phaseFieldPairs (runOp otreeUrl ws code st op).2.1,
      lookupKey (runOp otreeUrl ws code st op).1.form_fields code = some q.2) := by
  cases op with
  | navOp pid net =>
      have h := navigate_experiment_inv otreeUrl net st code pid conns sess closed n w
        hcs hss hcc hph hcon
      exact h
  | taskOp pid values net =>
      by_cases hempty : (code == "") = true
      · subst hcs hss hcc
        simp [runOp, handle_task, hempty, hph, phaseNums, phaseFieldPairs]
      · cases hsub : submit_task_to_otree otreeUrl net st code
            (buildTaskData ((lookupKey st.form_fields code).getD []) values) with
        | none =>
            subst hcs hss hcc
            simp [runOp, handle_task, hempty, hsub, hph, phaseNums, phaseFieldPairs]
        | some r =>
            obtain ⟨b, st1, acts⟩ := r
            obtain ⟨p1, p2, p3, p4, p5⟩ :=
              submit_preserves otreeUrl net st code _ b st1 acts hsub
            cases b with
            | false =>
                subst hcs hss hcc
                simp [runOp, handle_task, hempty, hsub, hph, phaseNums, phaseFieldPairs,
                  p1, p2, p3, p4]
            | true =>
                obtain ⟨g1, g2, g3, g4, g5, g6, g7⟩ :=
                  navigate_experiment_inv otreeUrl (shiftNet net 1) st1 code pid
                    conns sess closed n w (p2.trans hcs) (p3.trans hss) (p4.trans hcc)
                    (p1 ▸ hph) (by rw [p2]; exact hcon)
                simp only [runOp, handle_task, hempty, hsub]
                try rw [if_neg hempty]
                exact ⟨g1, g2, g3, g4, g5, g6, g7⟩

theorem runTrace_inv (otreeUrl : String) (ws : Nat) (code : String) :
    ∀ (ops : List SessionOp) (st : BridgeState)
      (conns sess : List (String × Nat)) (closed : List Nat) (n w : Nat),
      st.participant_connections = conns →
      st.participant_sessions = sess →
      st.closedClients = closed →
      lookupKey st.participant_phases code = some n →
      lookupKey st.participant_connections code = some w →
      lookupKey (runTrace otreeUrl ws code st ops).1.participant_phases code =
          some (n + (runTrace otreeUrl ws code st ops).2.2) ∧
      phaseNums (runTrace otreeUrl ws code st ops).2.1 =
          List.range' (n + 1) (runTrace otreeUrl ws code st ops).2.2 ∧
      (runTrace otreeUrl ws code st ops).1.participant_connections = conns ∧
      (runTrace otreeUrl ws code st ops).1.participant_sessions = sess ∧
      (runTrace otreeUrl ws code st ops).1.closedClients = closed
  | [], st, conns, sess, closed, n, w, hcs, hss, hcc, hph, hcon => by
      subst hcs hss hcc
      simp [runTrace, hph, phaseNums]
  | op :: rest, st, conns, sess, closed, n, w, hcs, hss, hcc, hph, hcon => by
      obtain ⟨g1, g2, g3, g4, g5, g6, _⟩ :=
        runOp_inv otreeUrl ws code st op conns sess closed n w hcs hss hcc hph hcon
      obtain ⟨t1, t2, t3, t4, t5⟩ :=
        runTrace_inv otreeUrl ws code rest (runOp otreeUrl ws code st op).1
          conns sess closed (n + (runOp otreeUrl ws code st op).2.2) w
          g4 g5 g6 g1 (g4 ▸ (hcs ▸ hcon))
      simp only [runTrace]
      refine ⟨?_, ?_, t3, t4, t5⟩
      · rw [t1]; ring_nf
      · rw [phaseNums_append, g3, t2]
        rcases Nat.le_one_iff_eq_zero_or_eq_one.mp g2 with h0 | h1
        · simp [h0]
        · simp only [h1, if_pos rfl, if_true]
          rw [Nat.add_comm 1 _, List.range'_succ]
          simp

theorem ctn_inv (otreeUrl : String) (net : Nat → HttpResponse) (st : BridgeState)
    (code : String) (pid : Int) (url : String)
    (conns sess : List (String × Nat)) (closed : List Nat) (n w : Nat)
    (hcs : st.participant_connections = conns)
    (hss : st.participant_sessions = sess)
    (hcc : st.closedClients = closed)
    (hph : lookupKey st.participant_phases code = some n)
    (hcon : lookupKey st.participant_connections code = some w) :
    CtnInv conns sess closed code n
      (continue_to_next_page otreeUrl net st code pid url) := by
  have hcon2 : lookupKey conns code = some w := hcs ▸ hcon
  unfold continue_to_next_page
  dsimp only
  split_ifs with h1 h2 h3 h4
  all_goals try cases hdata : (net 1).body.otreeData
  all_goals try dsimp only
  all_goals try (refine ⟨?_, ?_, ?_, ?_, ?_, ?_, ?_⟩ <;>
    (simp [CtnInv, bumpPhase, hph, hcs, hss, hcc, hcon, hcon2,
      lookup_pyInsert_self, phaseNums, phaseNums_append,
      phaseNums_send_phase_update, send_phase_update]; done))

theorem handle_join_success (otreeUrl : String) (net : Nat → HttpResponse)
    (st : BridgeState) (ws clientId : Nat) (jm : JoinMsg) (code : String)
    (hcode : (handle_join otreeUrl net st ws clientId jm).code = code)
    (hne : code ≠ "") :
    lookupKey (handle_join otreeUrl net st ws clientId jm).state.participant_phases code =
        some (handle_join otreeUrl net st ws clientId jm).actionPages ∧
    (handle_join otreeUrl net st ws clientId jm).actionPages ≤ 1 ∧
    phaseNums (handle_join otreeUrl net st ws clientId jm).events =
        List.range' 1 (handle_join otreeUrl net st ws clientId jm).actionPages ∧
    lookupKey (handle_join otreeUrl net st ws clientId jm).state.participant_connections
        code = some ws ∧
    lookupKey (handle_join otreeUrl net st ws clientId jm).state.participant_sessions
        code = some clientId ∧
    (handle_join otreeUrl net st ws clientId jm).state.closedClients = st.closedClients := by
  obtain ⟨mc, mp⟩ := jm
  unfold handle_join at hcode ⊢
  cases mc with
  | none => cases mp <;> exact absurd hcode.symm hne
  | some c =>
    cases mp with
    | none => exact absurd hcode.symm hne
    | some p =>
      dsimp only at hcode ⊢
      by_cases hc : (c == "") = true
      · rw [if_pos hc] at hcode ⊢
        exact absurd hcode.symm hne
      · rw [if_neg hc] at hcode ⊢
        by_cases hrz :
          (initialize_participant otreeUrl net
            { st with
              participant_connections := pyInsert st.participant_connections c ws,
              participant_sessions := pyInsert st.participant_sessions c clientId,
              participant_phases := pyInsert st.participant_phases c 0 }
            c p).raised = true
        · rw [if_pos hrz] at hcode ⊢
          exact absurd hcode.symm hne
        · rw [if_neg hrz] at hcode ⊢
          dsimp only at hcode ⊢
          subst hcode
          obtain ⟨k1, k2, k3, k4, k5, k6, _⟩ :=
            ctn_inv otreeUrl net
              { st with
                participant_connections := pyInsert st.participant_connections c ws,
                participant_sessions := pyInsert st.participant_sessions c clientId,
                participant_phases := pyInsert st.participant_phases c 0 }
              c p (otreeUrl ++ "/InitializeParticipant/" ++ c)
              (pyInsert st.participant_connections c ws)
              (pyInsert st.participant_sessions c clientId)
              st.closedClients 0 ws rfl rfl rfl
              (lookup_pyInsert_self _ _ _) (lookup_pyInsert_self _ _ _)
          have hinit :
              initialize_participant otreeUrl net
                { st with
                  participant_connections := pyInsert st.participant_connections c ws,
                  participant_sessions := pyInsert st.participant_sessions c clientId,
                  participant_phases := pyInsert st.participant_phases c 0 }
                c p =
              continue_to_next_page otreeUrl net
                { st with
                  participant_connections := pyInsert st.participant_connections c ws,
                  participant_sessions := pyInsert st.participant_sessions c clientId,
                  participant_phases := pyInsert st.participant_phases c 0 }
                c p (otreeUrl ++ "/InitializeParticipant/" ++ c) := by
            unfold initialize_participant
            rw [lookup_pyInsert_self]
          rw [hinit] at hrz ⊢
          refine ⟨by simpa using k1, k2, ?_, by rw [k4]; exact lookup_pyInsert_self _ _ _,
            by rw [k5]; exact lookup_pyInsert_self _ _ _, k6⟩
          rw [k3]
          rcases Nat.le_one_iff_eq_zero_or_eq_one.mp k2 with h0 | h1
          · simp [h0]
          · simp [h1, List.range']

theorem range'_one_append (m n : Nat) :
    List.range' 1 m ++ List.range' (m + 1) n = List.range' 1 (m + n) := by
  have h := List.range'_append 1 m n 1
  rw [Nat.one_mul, Nat.add_comm 1 m] at h
  rw [h, Nat.add_comm m n]

theorem chain_lt_range' (s n : Nat) : List.Chain' (· < ·) (List.range' s n) :=
  (List.pairwise_lt_range' s n 1 (by omega)).chain'

/-- C1: for every participant session (a join whose returned participant
code is non-empty, followed by any sequence of navigation and task steps
for that participant), the phase counter is 0 at join and afterwards always
equals the number of action pages traversed so far (so it is incremented
exactly once per action page and never decreases), and the
phase-transition events emitted across the session carry exactly the
successive counts 1, 2, 3, ... of action pages traversed, a strictly
increasing sequence. -/
theorem claim_C1_phase_counter (otreeUrl : String) (netJ : Nat → HttpResponse)
    (st0 : BridgeState) (ws clientId : Nat) (jm : JoinMsg) (code : String)
    (ops : List SessionOp)
    (hcode : (handle_join otreeUrl netJ st0 ws clientId jm).code = code)
    (hne : code ≠ "") :
    lookupKey (handle_join otreeUrl netJ st0 ws clientId jm).state.participant_phases
        code = some (handle_join otreeUrl netJ st0 ws clientId jm).actionPages ∧
    lookupKey
        (runTrace otreeUrl ws code (handle_join otreeUrl netJ st0 ws clientId jm).state
          ops).1.participant_phases code =
      some ((handle_join otreeUrl netJ st0 ws clientId jm).actionPages +
        (runTrace otreeUrl ws code (handle_join otreeUrl netJ st0 ws clientId jm).state
          ops).2.2) ∧
    phaseNums ((handle_join otreeUrl netJ st0 ws clientId jm).events ++
        (runTrace otreeUrl ws code (handle_join otreeUrl netJ st0 ws clientId jm).state
          ops).2.1) =
      List.range' 1 ((handle_join otreeUrl netJ st0 ws clientId jm).actionPages +
        (runTrace otreeUrl ws code (handle_join otreeUrl netJ st0 ws clientId jm).state
          ops).2.2) ∧
    List.Chain' (· < ·)
      (phaseNums ((handle_join otreeUrl netJ st0 ws clientId jm).events ++
        (runTrace otreeUrl ws code (handle_join otreeUrl netJ st0 ws clientId jm).state
          ops).2.1)) := by
  obtain ⟨j1, j2, j3, j4, j5, j6⟩ :=
    handle_join_success otreeUrl netJ st0 ws clientId jm code hcode hne
  obtain ⟨t1, t2, t3, t4, t5⟩ :=
    runTrace_inv otreeUrl ws code ops
      (handle_join otreeUrl netJ st0 ws clientId jm).state _ _ _
      (handle_join otreeUrl netJ st0 ws clientId jm).actionPages ws
      rfl rfl rfl j1 j4
  have hcat :
      phaseNums ((handle_join otreeUrl netJ st0 ws clientId jm).events ++
        (runTrace otreeUrl ws code (handle_join otreeUrl netJ st0 ws clientId jm).state
          ops).2.1) =
      List.range' 1 ((handle_join otreeUrl netJ st0 ws clientId jm).actionPages +
        (runTrace otreeUrl ws code (handle_join otreeUrl netJ st0 ws clientId jm).state
          ops).2.2) := by
    rw [phaseNums_append, j3, t2, range'_one_append]
  exact ⟨j1, t1, hcat, hcat ▸ chain_lt_range' 1 _⟩

theorem claim_C1_phase_counter_witness :
    (handle_join "http://x" netJoinA emptyBridge 5 9 ⟨some "A", some 1⟩).code = "A" ∧
    ("A" : String) ≠ "" ∧
    (lookupKey (handle_join "http://x" netJoinA emptyBridge 5 9
        ⟨some "A", some 1⟩).state.participant_phases "A" =
      some (handle_join "http://x" netJoinA emptyBridge 5 9
        ⟨some "A", some 1⟩).actionPages ∧
    lookupKey
        (runTrace "http://x" 5 "A" (handle_join "http://x" netJoinA emptyBridge 5 9
          ⟨some "A", some 1⟩).state
          [SessionOp.taskOp 1 [("contribution", JVal.i 3)] netTaskA]).1.participant_phases
        "A" =
      some ((handle_join "http://x" netJoinA emptyBridge 5 9
          ⟨some "A", some 1⟩).actionPages +
        (runTrace "http://x" 5 "A" (handle_join "http://x" netJoinA emptyBridge 5 9
          ⟨some "A", some 1⟩).state
          [SessionOp.taskOp 1 [("contribution", JVal.i 3)] netTaskA]).2.2) ∧
    phaseNums ((handle_join "http://x" netJoinA emptyBridge 5 9
        ⟨some "A", some 1⟩).events ++
        (runTrace "http://x" 5 "A" (handle_join "http://x" netJoinA emptyBridge 5 9
          ⟨some "A", some 1⟩).state
          [SessionOp.taskOp 1 [("contribution", JVal.i 3)] netTaskA]).2.1) =
      List.range' 1 ((handle_join "http://x" netJoinA emptyBridge 5 9
          ⟨some "A", some 1⟩).actionPages +
        (runTrace "http://x" 5 "A" (handle_join "http://x" netJoinA emptyBridge 5 9
          ⟨some "A", some 1⟩).state
          [SessionOp.taskOp 1 [("contribution", JVal.i 3)] netTaskA]).2.2) ∧
    List.Chain' (· < ·)
      (phaseNums ((handle_join "http://x" netJoinA emptyBridge 5 9
          ⟨some "A", some 1⟩).events ++
        (runTrace "http://x" 5 "A" (handle_join "http://x" netJoinA emptyBridge 5 9
          ⟨some "A", some 1⟩).state
          [SessionOp.taskOp 1 [("contribution", JVal.i 3)] netTaskA]).2.1))) :=
  ⟨rfl, by decide,
    claim_C1_phase_counter "http://x" netJoinA emptyBridge 5 9 ⟨some "A", some 1⟩ "A"
      [SessionOp.taskOp 1 [("contribution", JVal.i 3)] netTaskA] rfl (by decide)⟩

theorem lookup_condErase_self {α : Type} (l : List (String × α)) (k : String) :
    lookupKey (condErase l k) k = none := by
  unfold condErase
  split
  · exact lookup_eraseKey_self l k
  · rename_i hs
    cases hl : lookupKey l k with
    | none => rfl
    | some v => exact absurd (by simp [hl]) hs

theorem condErase_of_none {α : Type} (l : List (String × α)) (k : String)
    (h : lookupKey l k = none) : condErase l k = l := by
  unfold condErase
  rw [h]
  rfl

theorem cleanup_noop (st : BridgeState) (code : String)
    (h1 : lookupKey st.participant_connections code = none)
    (h2 : lookupKey st.participant_sessions code = none)
    (h3 : lookupKey st.participant_urls code = none)
    (h4 : lookupKey st.participant_phases code = none)
    (h5 : lookupKey st.form_fields code = none) :
    cleanup_connection st (some code) = st := by
  by_cases hc : (code == "") = true
  · simp only [cleanup_connection, if_pos hc]
  · simp only [cleanup_connection, if_neg hc]
    rw [condErase_of_none _ _ h1, h2,
      condErase_of_none _ _ h3, condErase_of_none _ _ h4, condErase_of_none _ _ h5]

theorem cleanup_clears (st : BridgeState) (code : String) (h : code ≠ "") :
    lookupKey (cleanup_connection st (some code)).participant_connections code = none ∧
    lookupKey (cleanup_connection st (some code)).participant_sessions code = none ∧
    lookupKey (cleanup_connection st (some code)).participant_urls code = none ∧
    lookupKey (cleanup_connection st (some code)).participant_phases code = none ∧
    lookupKey (cleanup_connection st (some code)).form_fields code = none := by
  simp only [cleanup_connection, if_neg (show ¬(code == "") = true by simpa using h)]
  cases hl : lookupKey st.participant_sessions code with
  | some cid =>
      dsimp only
      exact ⟨lookup_condErase_self _ _, lookup_eraseKey_self _ _,
        lookup_condErase_self _ _, lookup_condErase_self _ _,
        lookup_condErase_self _ _⟩
  | none =>
      dsimp only
      exact ⟨lookup_condErase_self _ _, hl,
        lookup_condErase_self _ _, lookup_condErase_self _ _,
        lookup_condErase_self _ _⟩

theorem cleanup_idem (st : BridgeState) (p : Option String) :
    cleanup_connection (cleanup_connection st p) p = cleanup_connection st p := by
  cases p with
  | none => rfl
  | some code =>
      by_cases hc : code = ""
      · subst hc
        rfl
      · obtain ⟨h1, h2, h3, h4, h5⟩ := cleanup_clears st code hc
        exact cleanup_noop _ code h1 h2 h3 h4 h5

/-- C6: cleanup of a participant connection is idempotent — invoking it
twice in a row yields exactly the state of invoking it once (and the
embedding is a total function: every delete in the source is guarded by a
membership test, so no `KeyError` can be raised) — after cleanup no client
session remains registered for the code, and cleanup is safe to invoke
when no session exists for the given participant code: it returns the
state unchanged. -/
theorem claim_C6_cleanup_idempotent :
    (∀ (st : BridgeState) (p : Option String),
      cleanup_connection (cleanup_connection st p) p = cleanup_connection st p) ∧
    (∀ (st : BridgeState) (code : String), code ≠ "" →
      lookupKey (cleanup_connection st (some code)).participant_sessions code = none) ∧
    (∀ (st : BridgeState) (code : String),
      lookupKey st.participant_connections code = none →
      lookupKey st.participant_sessions code = none →
      lookupKey st.participant_urls code = none →
      lookupKey st.participant_phases code = none →
      lookupKey st.form_fields code = none →
      cleanup_connection st (some code) = st) :=
  ⟨cleanup_idem, fun st code h => (cleanup_clears st code h).2.1, cleanup_noop⟩

theorem claim_C6_cleanup_idempotent_witness :
    cleanup_connection (cleanup_connection sampleState (some "A")) (some "A") =
      cleanup_connection sampleState (some "A") ∧
    ("A" : String) ≠ "" ∧
    lookupKey (cleanup_connection sampleState (some "A")).participant_sessions "A" =
      none ∧
    lookupKey emptyBridge.participant_connections "A" = none ∧
    cleanup_connection emptyBridge (some "A") = emptyBridge :=
  ⟨claim_C6_cleanup_idempotent.1 sampleState (some "A"), by decide,
   claim_C6_cleanup_idempotent.2.1 sampleState "A" (by decide),
   by decide,
   claim_C6_cleanup_idempotent.2.2 emptyBridge "A" rfl rfl rfl rfl rfl⟩

theorem isRedirect_okStatus (r : HttpResponse) (h : r.isRedirect = true) :
    r.okStatus = true := by
  unfold HttpResponse.isRedirect at h
  unfold HttpResponse.okStatus
  simp only [Bool.and_eq_true, Bool.or_eq_true, beq_iff_eq] at h
  simp only [decide_eq_true_eq]
  have h2 := h.2
  rcases h2 with ((((h3 | h3) | h3) | h3) | h3) <;> rw [h3] <;> omega

/-- C4: with a registered HTTP client and a non-empty stored cursor URL,
`submit_task_to_otree` POSTs the form-encoded task data to the cursor URL
and succeeds exactly when the response is a redirect: on success the
cursor URL becomes the redirect target (a relative `Location` being
resolved against the oTree base URL), and on a missing redirect it returns
failure with the cursor URL — and the whole state — left unchanged. -/
theorem claim_C4_submit_redirect (otreeUrl : String) (net : Nat → HttpResponse)
    (st : BridgeState) (code : String) (td : List (String × Option JVal))
    (cid : Nat) (u : String)
    (hs : lookupKey st.participant_sessions code = some cid)
    (hu : lookupKey st.participant_urls code = some u)
    (hne : u ≠ "") :
    submit_task_to_otree otreeUrl net st code td =
      some ((net 0).isRedirect,
        (if (net 0).isRedirect then
          { st with participant_urls := pyInsert st.participant_urls code (resolveLocation otreeUrl ((net 0).location.getD "")) }
         else st),
        [Act.post u (encodeForm td)]) ∧
    ((net 0).isRedirect = true →
      ∀ st1, submit_task_to_otree otreeUrl net st code td =
          some (true, st1, [Act.post u (encodeForm td)]) →
        lookupKey st1.participant_urls code =
          some (resolveLocation otreeUrl ((net 0).location.getD ""))) ∧
    ((net 0).isRedirect = false →
      submit_task_to_otree otreeUrl net st code td =
        some (false, st, [Act.post u (encodeForm td)])) ∧
    (∀ loc : String, strStarts loc "http" = false →
      resolveLocation otreeUrl loc = otreeUrl ++ loc) := by
  have hmain :
      submit_task_to_otree otreeUrl net st code td =
        some ((net 0).isRedirect,
          (if (net 0).isRedirect then
            { st with participant_urls := pyInsert st.participant_urls code (resolveLocation otreeUrl ((net 0).location.getD "")) }
           else st),
          [Act.post u (encodeForm td)]) := by
    unfold submit_task_to_otree
    rw [hs, hu]
    dsimp only
    rw [if_neg (by simpa using hne)]
    by_cases hr : (net 0).isRedirect = true
    · have hok := isRedirect_okStatus _ hr
      simp [hok, hr]
    · have hfalse : (net 0).isRedirect = false := Bool.eq_false_iff.mpr hr
      by_cases hok : (net 0).okStatus = true
      · simp [hok, hfalse]
      · simp [hok, hfalse]
  refine ⟨hmain, ?_, ?_, ?_⟩
  · intro hr st1 heq
    rw [hmain, hr] at heq
    simp only [if_true, Option.some.injEq, Prod.mk.injEq] at heq
    obtain ⟨_, rfl, _⟩ := heq
    exact lookup_pyInsert_self _ _ _
  · intro hr
    rw [hmain, hr]
    simp
  · intro loc hl
    unfold resolveLocation
    rw [if_neg (by simp [hl])]

theorem claim_C4_submit_redirect_witness :
    lookupKey sampleState.participant_sessions "A" = some 9 ∧
    lookupKey sampleState.participant_urls "A" = some "u" ∧
    ("u" : String) ≠ "" ∧
    submit_task_to_otree "http://x" netTaskA sampleState "A" [] =
      some ((netTaskA 0).isRedirect,
        (if (netTaskA 0).isRedirect then
          { sampleState with participant_urls := pyInsert sampleState.participant_urls "A" (resolveLocation "http://x" ((netTaskA 0).location.getD "")) }
         else sampleState),
        [Act.post "u" (encodeForm [])]) :=
  ⟨rfl, rfl, by decide,
    (claim_C4_submit_redirect "http://x" netTaskA sampleState "A" [] 9 "u"
      rfl rfl (by decide)).1⟩

theorem navIter_wait (otreeUrl : String) (net : Nat → HttpResponse) (code : String)
    (pid : Int) (k : Nat) (u : String) (st : BridgeState)
    (hok : (net k).okStatus = true) (hrd : (net k).isRedirect = false)
    (hwh : (net k).waitHeader = true) :
    navIter otreeUrl net code pid k u st =
      .loop st [] [Act.get u, Act.sleepSec 2] u 1 := by
  unfold navIter
  simp [hok, hrd, hwh]

theorem navStepLoop_allwait (otreeUrl : String) (net : Nat → HttpResponse)
    (code : String) (pid : Int)
    (hw : ∀ i, (net i).okStatus = true ∧ (net i).isRedirect = false ∧
      (net i).waitHeader = true) :
    ∀ (fuel k : Nat) (u : String) (st : BridgeState),
      navStepLoop otreeUrl net code pid fuel k u st =
        ⟨st, [], List.join (List.replicate fuel [Act.get u, Act.sleepSec 2]), 0,
          .timedOut⟩
  | 0, k, u, st => rfl
  | fuel + 1, k, u, st => by
      have hk := hw k
      rw [navStepLoop, navIter_wait otreeUrl net code pid k u st hk.1 hk.2.1 hk.2.2]
      dsimp only
      rw [navStepLoop_allwait otreeUrl net code pid hw fuel (k + 1) u st]
      simp [List.replicate_succ]

/-- C5: when a fetched response carries the `oTree-Wait-Page` marker (and
is not a redirect), one loop iteration performs exactly a GET of the
current URL and a fixed 2-second sleep, emits nothing and changes no
state, and re-fetches the very same URL on the next iteration; the
attempt count is bounded by `max_attempts = 30` (within the spec's
reference range 10–30); and when every poll sees the barrier, navigation
ends in the timed-out (PollingTimeout) outcome after exactly 30 polls of
the same URL, with no outbound event and the whole registry — this
participant's entries included, every other participant's untouched —
left exactly as it was. -/
theorem claim_C5_wait_barrier_polling (otreeUrl : String) (net : Nat → HttpResponse)
    (code : String) (pid : Int) (st : BridgeState) (cid : Nat) (u : String)
    (hw : ∀ i, (net i).okStatus = true ∧ (net i).isRedirect = false ∧
      (net i).waitHeader = true)
    (hs : lookupKey st.participant_sessions code = some cid)
    (hu : lookupKey st.participant_urls code = some u)
    (hne : u ≠ "") :
    (∀ (fuel k : Nat) (u2 : String) (st2 : BridgeState),
      navStepLoop otreeUrl net code pid (fuel + 1) k u2 st2 =
        ⟨(navStepLoop otreeUrl net code pid fuel (k + 1) u2 st2).state,
         (navStepLoop otreeUrl net code pid fuel (k + 1) u2 st2).events,
         [Act.get u2, Act.sleepSec 2] ++
           (navStepLoop otreeUrl net code pid fuel (k + 1) u2 st2).acts,
         (navStepLoop otreeUrl net code pid fuel (k + 1) u2 st2).actionPages,
         (navStepLoop otreeUrl net code pid fuel (k + 1) u2 st2).outcome⟩) ∧
    navigate_experiment otreeUrl net st code pid =
      ⟨st, [], List.join (List.replicate max_attempts [Act.get u, Act.sleepSec 2]),
        0, .timedOut⟩ ∧
    10 ≤ max_attempts ∧ max_attempts ≤ 30 := by
  refine ⟨?_, ?_, by decide, by decide⟩
  · intro fuel k u2 st2
    have hk := hw k
    rw [navStepLoop, navIter_wait otreeUrl net code pid k u2 st2 hk.1 hk.2.1 hk.2.2]
    dsimp only
    simp
  · unfold navigate_experiment
    rw [hs, hu]
    dsimp only
    rw [if_neg (by simpa using hne)]
    exact navStepLoop_allwait otreeUrl net code pid hw max_attempts 0 u st

theorem claim_C5_wait_barrier_polling_witness :
    (∀ i, (netWait i).okStatus = true ∧ (netWait i).isRedirect = false ∧
      (netWait i).waitHeader = true) ∧
    lookupKey sampleState.participant_sessions "A" = some 9 ∧
    lookupKey sampleState.participant_urls "A" = some "u" ∧
    ("u" : String) ≠ "" ∧
    navigate_experiment "http://x" netWait sampleState "A" 1 =
      ⟨sampleState, [],
        List.join (List.replicate max_attempts [Act.get "u", Act.sleepSec 2]),
        0, .timedOut⟩ :=
  ⟨fun _ => ⟨rfl, rfl, rfl⟩, rfl, rfl, by decide,
    (claim_C5_wait_barrier_polling "http://x" netWait "A" 1 sampleState 9 "u"
      (fun _ => ⟨rfl, rfl, rfl⟩) rfl rfl (by decide)).2.1⟩

theorem lookup_isSome_of_mem {α : Type} (l : List (String × α)) (q : String × α)
    (hmem : q ∈ l) : (lookupKey l q.1).isSome = true := by
  induction l with
  | nil => cases hmem
  | cons p rest ih =>
      unfold lookupKey
      by_cases hp : (p.1 == q.1) = true
      · rw [if_pos hp]
        rfl
      · rw [if_neg hp]
        rcases List.mem_cons.mp hmem with rfl | hmem2
        · exact absurd (by simp) hp
        · exact ih hmem2

theorem mem_pyInsert {α : Type} (l : List (String × α)) (k : String) (v : α)
    (q : String × α) (hq : q ∈ pyInsert l k v) :
    q = (k, v) ∨ (q ∈ l ∧ q.1 ≠ k) := by
  unfold pyInsert at hq
  split at hq
  · rcases List.mem_map.mp hq with ⟨p, hp, heq⟩
    by_cases hpk : (p.1 == k) = true
    · rw [if_pos hpk] at heq
      exact Or.inl heq.symm
    · rw [if_neg hpk] at heq
      subst heq
      exact Or.inr ⟨hp, by simpa using hpk⟩
  · rcases List.mem_append.mp hq with hmem | hmem
    · by_cases hpk : q.1 = k
      · rename_i hs
        exact absurd (hpk ▸ lookup_isSome_of_mem l q hmem) hs
      · exact Or.inr ⟨hmem, hpk⟩
    · simp only [List.mem_singleton] at hmem
      exact Or.inl hmem

theorem lookup_buildTaskData_gen (values : List (String × JVal)) (f : String) :
    ∀ (fields : List String) (acc : List (String × Option JVal)),
      lookupKey (fields.foldl (fun m g => pyInsert m g (lookupKey values g)) acc) f =
        (if f ∈ fields then some (lookupKey values f) else lookupKey acc f)
  | [], acc => by simp
  | g :: gs, acc => by
      rw [List.foldl_cons, lookup_buildTaskData_gen values f gs]
      by_cases hgs : f ∈ gs
      · simp [hgs, List.mem_cons]
      · by_cases hfg : f = g
        · subst hfg
          simp [hgs, lookup_pyInsert_self]
        · have hne : ¬ f ∈ g :: gs := by
            simp [List.mem_cons, hfg, hgs]
          rw [if_neg hgs, if_neg hne, lookup_pyInsert_other _ _ _ _ hfg]

theorem lookup_buildTaskData (fields : List String) (values : List (String × JVal))
    (f : String) :
    lookupKey (buildTaskData fields values) f =
      (if f ∈ fields then some (lookupKey values f) else none) := by
  unfold buildTaskData
  rw [lookup_buildTaskData_gen values f fields []]
  rfl

theorem mem_buildTaskData_gen (values : List (String × JVal)) :
    ∀ (fields : List String) (acc : List (String × Option JVal)),
      (∀ q ∈ acc, q.2 = lookupKey values q.1) →
      ∀ q ∈ fields.foldl (fun m g => pyInsert m g (lookupKey values g)) acc,
        q.2 = lookupKey values q.1
  | [], _, hacc => hacc
  | g :: gs, acc, hacc => by
      rw [List.foldl_cons]
      refine mem_buildTaskData_gen values gs _ ?_
      intro q hq
      rcases mem_pyInsert _ _ _ q hq with rfl | ⟨hmem, _⟩
      · rfl
      · exact hacc q hmem

theorem mem_buildTaskData (fields : List String) (values : List (String × JVal))
    (q : String × Option JVal) (hq : q ∈ buildTaskData fields values) :
    q.2 = lookupKey values q.1 :=
  mem_buildTaskData_gen values fields [] (by intro q hq; cases hq) q hq

theorem lookup_encodeForm_allSome (d : List (String × Option JVal))
    (h : ∀ p ∈ d, p.2.isSome = true) (f : String) :
    lookupKey (encodeForm d) f = (lookupKey d f).join := by
  induction d with
  | nil => rfl
  | cons p rest ih =>
      obtain ⟨v, hv⟩ := Option.isSome_iff_exists.mp (h p (List.mem_cons_self p rest))
      have hred : encodeForm (p :: rest) = (p.1, v) :: encodeForm rest := by
        unfold encodeForm
        rw [List.filterMap_cons]
        simp [hv]
      rw [hred]
      simp only [lookupKey]
      by_cases hpf : (p.1 == f) = true
      · rw [if_pos hpf, if_pos hpf, hv]
        rfl
      · rw [if_neg hpf, if_neg hpf]
        exact ih (fun q hq => h q (List.mem_cons_of_mem p hq))

/-- C7: `handle_task` builds the upstream submission by projecting the task
message through `discoveredFields` (the form_fields entry for the code):
every discovered field appears with exactly the value supplied in the
message, keys of the message outside the discovered fields are ignored,
and — when the message supplies every discovered field — the form-encoded
body contains exactly the discovered field names with the supplied values.
Staleness is impossible: any phase-transition event emitted by a
navigation call announces exactly the field list stored in the registry
when that call suspends, so the fields used by the next task are the ones
captured at the most recent action page, replaced wholesale, never merged
with earlier ones. -/
theorem claim_C7_task_field_projection (st : BridgeState) (code : String)
    (values : List (String × JVal)) (otreeUrl : String) (net : Nat → HttpResponse)
    (pid : Int) (n w : Nat)
    (hph : lookupKey st.participant_phases code = some n)
    (hcon : lookupKey st.participant_connections code = some w) :
    (∀ f ∈ (lookupKey st.form_fields code).getD [],
      lookupKey (buildTaskData ((lookupKey st.form_fields code).getD []) values) f =
        some (lookupKey values f)) ∧
    (∀ g, g ∉ (lookupKey st.form_fields code).getD [] →
      lookupKey (buildTaskData ((lookupKey st.form_fields code).getD []) values) g =
        none) ∧
    ((∀ f ∈ (lookupKey st.form_fields code).getD [],
        (lookupKey values f).isSome = true) →
      ∀ f, lookupKey
          (encodeForm (buildTaskData ((lookupKey st.form_fields code).getD []) values))
          f =
        (if f ∈ (lookupKey st.form_fields code).getD [] then lookupKey values f
         else none)) ∧
    (∀ q ∈ phaseFieldPairs (navigate_experiment otreeUrl net st code pid).events,
      lookupKey (navigate_experiment otreeUrl net st code pid).state.form_fields
        code = some q.2) := by
  refine ⟨?_, ?_, ?_, ?_⟩
  · intro f hf
    rw [lookup_buildTaskData, if_pos hf]
  · intro g hg
    rw [lookup_buildTaskData, if_neg hg]
  · intro hsup f
    have hall : ∀ p ∈ buildTaskData ((lookupKey st.form_fields code).getD []) values,
        p.2.isSome = true := by
      intro p hp
      have hval := mem_buildTaskData _ values p hp
      have hkey : p.1 ∈ (lookupKey st.form_fields code).getD [] := by
        have hsome := lookup_isSome_of_mem _ p hp
        rw [lookup_buildTaskData] at hsome
        by_cases hmem : p.1 ∈ (lookupKey st.form_fields code).getD []
        · exact hmem
        · rw [if_neg hmem] at hsome
          cases hsome
      rw [hval]
      exact hsup p.1 hkey
    rw [lookup_encodeForm_allSome _ hall, lookup_buildTaskData]
    by_cases hmem : f ∈ (lookupKey st.form_fields code).getD []
    · rw [if_pos hmem, if_pos hmem]
      rfl
    · rw [if_neg hmem, if_neg hmem]
      rfl
  · exact (navigate_experiment_inv otreeUrl net st code pid
      st.participant_connections st.participant_sessions st.closedClients n w
      rfl rfl rfl hph hcon).2.2.2.2.2.2

theorem claim_C7_task_field_projection_witness :
    lookupKey sampleState.participant_phases "A" = some 2 ∧
    lookupKey sampleState.participant_connections "A" = some 5 ∧
    (∀ f ∈ (lookupKey sampleState.form_fields "A").getD [],
      lookupKey (buildTaskData ((lookupKey sampleState.form_fields "A").getD [])
          [("f", JVal.i 4), ("extra", JVal.i 9)]) f =
        some (lookupKey [("f", JVal.i 4), ("extra", JVal.i 9)] f)) ∧
    (∀ g, g ∉ (lookupKey sampleState.form_fields "A").getD [] →
      lookupKey (buildTaskData ((lookupKey sampleState.form_fields "A").getD [])
          [("f", JVal.i 4), ("extra", JVal.i 9)]) g = none) :=
  have h := claim_C7_task_field_projection sampleState "A"
    [("f", JVal.i 4), ("extra", JVal.i 9)] "http://x" netWait 1 2 5 rfl rfl
  ⟨rfl, rfl, h.1, h.2.1⟩

theorem navStepLoop_succ (otreeUrl : String) (net : Nat → HttpResponse)
    (code : String) (pid : Int) (fuel k : Nat) (u : String) (st : BridgeState) :
    navStepLoop otreeUrl net code pid (fuel + 1) k u st =
      (match navIter otreeUrl net code pid k u st with
       | .done st1 evs acts ap o => ⟨st1, evs, acts, ap, o⟩
       | .loop st1 evs acts nextUrl c =>
         let r := navStepLoop otreeUrl net code pid fuel (k + c) nextUrl st1
         ⟨r.state, evs ++ r.events, acts ++ r.acts, r.actionPages, r.outcome⟩) := rfl

theorem navigate_eq_loop (otreeUrl : String) (net : Nat → HttpResponse)
    (st : BridgeState) (code : String) (pid : Int) (cid : Nat) (u : String)
    (hs : lookupKey st.participant_sessions code = some cid)
    (hu : lookupKey st.participant_urls code = some u)
    (hne : u ≠ "") :
    navigate_experiment otreeUrl net st code pid =
      navStepLoop otreeUrl net code pid max_attempts 0 u st := by
  unfold navigate_experiment
  rw [hs, hu]
  dsimp only
  rw [if_neg (by simpa using hne)]

theorem navIter_action (otreeUrl : String) (net : Nat → HttpResponse)
    (code : String) (pid : Int) (k : Nat) (u : String) (st : BridgeState)
    (n w d : Nat)
    (hph : lookupKey st.participant_phases code = some n)
    (hcon : lookupKey st.participant_connections code = some w)
    (h0 : (net k).okStatus = true) (h0r : (net k).isRedirect = true)
    (h1 : (net (k + 1)).okStatus = true)
    (hf : (net (k + 1)).body.formFields ≠ [])
    (hd : (net (k + 1)).body.otreeData = some d) :
    navIter otreeUrl net code pid k u st =
      .done
        { st with
          participant_urls := pyInsert st.participant_urls code (resolveLocation otreeUrl ((net k).location.getD "")),
          form_fields := pyInsert st.form_fields code (net (k + 1)).body.formFields,
          participant_phases := pyInsert st.participant_phases code (n + 1) }
        [(w, OutMsg.phaseTransition pid d (n + 1) (net (k + 1)).body.formFields)]
        [Act.get u, Act.get (resolveLocation otreeUrl ((net k).location.getD ""))]
        1 .awaitingAction := by
  unfold navIter
  dsimp only
  simp only [h0, h0r, h1, hd, Bool.not_true, Bool.false_eq_true, if_false, if_true,
    ite_true, ite_false]
  rw [if_pos (by simpa using hf)]
  unfold actionStep bumpPhase
  dsimp only
  rw [hph]
  unfold send_phase_update
  dsimp only
  rw [hcon]
  rfl

theorem navIter_nopayload (otreeUrl : String) (net : Nat → HttpResponse)
    (code : String) (pid : Int) (k : Nat) (u : String) (st : BridgeState)
    (h0 : (net k).okStatus = true) (h0r : (net k).isRedirect = true)
    (h1 : (net (k + 1)).okStatus = true)
    (hd : (net (k + 1)).body.otreeData = none) :
    navIter otreeUrl net code pid k u st =
      .loop
        { st with
          participant_urls := pyInsert st.participant_urls code (resolveLocation otreeUrl ((net k).location.getD "")),
          form_fields := pyInsert st.form_fields code (net (k + 1)).body.formFields }
        [] [Act.get u, Act.get (resolveLocation otreeUrl ((net k).location.getD ""))]
        u 2 := by
  unfold navIter
  dsimp only
  simp only [h0, h0r, h1, hd, Bool.not_true, Bool.false_eq_true, if_false, if_true,
    ite_true, ite_false]

theorem navIter_unexpected (otreeUrl : String) (net : Nat → HttpResponse)
    (code : String) (pid : Int) (k : Nat) (u : String) (st : BridgeState)
    (h0 : (net k).okStatus = true) (h0r : (net k).isRedirect = false)
    (h0w : (net k).waitHeader = false) :
    navIter otreeUrl net code pid k u st =
      .done st [] [Act.get u] 0 .unexpectedResponse := by
  unfold navIter
  dsimp only
  simp only [h0, h0r, h0w, Bool.not_true, Bool.false_eq_true, if_false, if_true,
    ite_true, ite_false]

theorem navStepLoop_unrecognized (otreeUrl : String) (net : Nat → HttpResponse)
    (code : String) (pid : Int)
    (h : ∀ j, (net (2 * j)).okStatus = true ∧ (net (2 * j)).isRedirect = true ∧
      (net (2 * j + 1)).okStatus = true ∧ (net (2 * j + 1)).body.otreeData = none) :
    ∀ (fuel j : Nat) (u : String) (st : BridgeState),
      (navStepLoop otreeUrl net code pid fuel (2 * j) u st).outcome = .timedOut ∧
      (navStepLoop otreeUrl net code pid fuel (2 * j) u st).events = []
  | 0, j, u, st => ⟨rfl, rfl⟩
  | fuel + 1, j, u, st => by
      obtain ⟨hj1, hj2, hj3, hj4⟩ := h j
      rw [navStepLoop_succ,
        navIter_nopayload otreeUrl net code pid (2 * j) u st hj1 hj2 hj3 hj4]
      dsimp only
      have hk : 2 * j + 2 = 2 * (j + 1) := by omega
      rw [hk]
      obtain ⟨o1, o2⟩ := navStepLoop_unrecognized otreeUrl net code pid h fuel (j + 1) u _
      exact ⟨o1, o2⟩

theorem infoBranch_resultPrefix (otreeUrl : String) (net : Nat → HttpResponse)
    (code : String) (pid : Int) (k : Nat) (cu nu : String) (st2 : BridgeState)
    (payload : Nat) (acts2 : List Act) (w : Nat)
    (hcon : lookupKey st2.participant_connections code = some w) :
    (infoBranch otreeUrl net code pid k cu nu st2 payload acts2).actsOf.take
        (acts2.length + 1) = acts2 ++ [Act.post nu []] ∧
    (infoBranch otreeUrl net code pid k cu nu st2 payload acts2).evsOf.head? =
      some (w, OutMsg.roundResult payload) := by
  have hsr : send_results st2 code payload = [(w, OutMsg.roundResult payload)] := by
    unfold send_results
    rw [hcon]
  unfold infoBranch
  dsimp only
  rw [hsr]
  split_ifs with h1 h2 h3 h4 h5
  all_goals try cases hdata : (net (k + 3)).body.otreeData
  all_goals try dsimp only
  all_goals try (unfold actionStep bumpPhase; dsimp only)
  all_goals try (cases hb : lookupKey st2.participant_phases code)
  all_goals try dsimp only
  all_goals
    refine ⟨?_, ?_⟩ <;>
      (simp [StepRes.actsOf, StepRes.evsOf, List.take_left', List.take_all_of_le,
        List.take_append_eq_append_take]; done)

theorem navIter_info (otreeUrl : String) (net : Nat → HttpResponse)
    (code : String) (pid : Int) (k : Nat) (u : String) (st : BridgeState) (d : Nat)
    (h0 : (net k).okStatus = true) (h0r : (net k).isRedirect = true)
    (h1 : (net (k + 1)).okStatus = true)
    (hf : (net (k + 1)).body.formFields = [])
    (hd : (net (k + 1)).body.otreeData = some d) :
    navIter otreeUrl net code pid k u st =
      infoBranch otreeUrl net code pid k u
        (resolveLocation otreeUrl ((net k).location.getD ""))
        { st with
          participant_urls := pyInsert st.participant_urls code (resolveLocation otreeUrl ((net k).location.getD "")),
          form_fields := pyInsert st.form_fields code (net (k + 1)).body.formFields }
        d
        [Act.get u, Act.get (resolveLocation otreeUrl ((net k).location.getD ""))] := by
  unfold navIter
  dsimp only
  simp only [h0, h0r, h1, hd, hf, Bool.not_true, Bool.false_eq_true, if_false,
    if_true, ite_true, ite_false, List.isEmpty_nil]

/-- C2 (amended): dispatch of a fetched page body by the navigation loop.
(a) Fields and payload present: an action page — one phase-transition
event announcing the fields is emitted and navigation returns awaiting a
task message, no further request being made. (b) Payload present, fields
absent: an informational page — a round-result event is emitted first and
an empty form is POSTed to the same URL to self-advance. (c) No payload:
the page is not dispatched at all — the iteration emits nothing and the
loop retries the unchanged current URL — so navigation ends in the
timed-out failure only when every remaining attempt yields such pages (in
particular a single such page is not a hard failure). (d) A response that
is neither a redirect nor a wait page is an immediate failure of the
navigation (unexpected-response break), with nothing emitted. -/
theorem claim_C2_page_classification (otreeUrl : String)
    (net : Nat → HttpResponse) (st : BridgeState) (code : String) (pid : Int)
    (cid : Nat) (u : String) (n w d : Nat)
    (hs : lookupKey st.participant_sessions code = some cid)
    (hu : lookupKey st.participant_urls code = some u)
    (hne : u ≠ "")
    (hph : lookupKey st.participant_phases code = some n)
    (hcon : lookupKey st.participant_connections code = some w)
    (h0 : (net 0).okStatus = true) :
    (((net 0).isRedirect = true → (net 1).okStatus = true →
      (net 1).body.formFields ≠ [] → (net 1).body.otreeData = some d →
      (navigate_experiment otreeUrl net st code pid).outcome = .awaitingAction ∧
      (navigate_experiment otreeUrl net st code pid).events =
        [(w, OutMsg.phaseTransition pid d (n + 1) (net 1).body.formFields)] ∧
      (navigate_experiment otreeUrl net st code pid).acts =
        [Act.get u, Act.get (resolveLocation otreeUrl ((net 0).location.getD ""))])) ∧
    ((net 0).isRedirect = true → (net 1).okStatus = true →
      (net 1).body.formFields = [] → (net 1).body.otreeData = some d →
      (navigate_experiment otreeUrl net st code pid).acts.take 3 =
        [Act.get u, Act.get (resolveLocation otreeUrl ((net 0).location.getD "")),
         Act.post (resolveLocation otreeUrl ((net 0).location.getD "")) []] ∧
      (navigate_experiment otreeUrl net st code pid).events.head? =
        some (w, OutMsg.roundResult d)) ∧
    ((∀ j, (net (2 * j)).okStatus = true ∧ (net (2 * j)).isRedirect = true ∧
        (net (2 * j + 1)).okStatus = true ∧
        (net (2 * j + 1)).body.otreeData = none) →
      (navigate_experiment otreeUrl net st code pid).outcome = .timedOut ∧
      (navigate_experiment otreeUrl net st code pid).events = []) ∧
    ((net 0).isRedirect = false → (net 0).waitHeader = false →
      navigate_experiment otreeUrl net st code pid =
        ⟨st, [], [Act.get u], 0, .unexpectedResponse⟩) := by
  have hnav := navigate_eq_loop otreeUrl net st code pid cid u hs hu hne
  refine ⟨?_, ?_, ?_, ?_⟩
  · intro h0r h1 hf hd
    rw [hnav, show max_attempts = 29 + 1 from rfl, navStepLoop_succ,
      navIter_action otreeUrl net code pid 0 u st n w d hph hcon h0 h0r h1 hf hd]
    exact ⟨rfl, rfl, rfl⟩
  · intro h0r h1 hf hd
    rw [hnav, show max_attempts = 29 + 1 from rfl, navStepLoop_succ,
      navIter_info otreeUrl net code pid 0 u st d h0 h0r h1 hf hd]
    obtain ⟨hA, hE⟩ := infoBranch_resultPrefix otreeUrl net code pid 0 u
      (resolveLocation otreeUrl ((net 0).location.getD ""))
      { st with
        participant_urls := pyInsert st.participant_urls code (resolveLocation otreeUrl ((net 0).location.getD "")),
        form_fields := pyInsert st.form_fields code (net 1).body.formFields }
      d [Act.get u, Act.get (resolveLocation otreeUrl ((net 0).location.getD ""))]
      w hcon
    cases hres : infoBranch otreeUrl net code pid 0 u
        (resolveLocation otreeUrl ((net 0).location.getD ""))
        { st with
          participant_urls := pyInsert st.participant_urls code (resolveLocation otreeUrl ((net 0).location.getD "")),
          form_fields := pyInsert st.form_fields code (net 1).body.formFields }
        d [Act.get u, Act.get (resolveLocation otreeUrl ((net 0).location.getD ""))] with
    | done st1 evs acts ap o =>
        rw [hres] at hA hE
        simp only [StepRes.actsOf, StepRes.evsOf] at hA hE
        simp only [List.length_cons, List.length_nil] at hA
        exact ⟨by simpa using hA, by simpa using hE⟩
    | loop st1 evs acts nu c =>
        rw [hres] at hA hE
        simp only [StepRes.actsOf, StepRes.evsOf] at hA hE
        simp only [List.length_cons, List.length_nil] at hA
        dsimp only
        constructor
        · have hlen : 3 ≤ acts.length := by
            have := congrArg List.length hA
            simp [List.length_take] at this
            omega
          rw [List.take_append_of_le_length hlen]
          simpa using hA
        · rcases acts_nil : evs with _ | ⟨e, tail⟩
          · rw [acts_nil] at hE
            cases hE
          · rw [acts_nil] at hE
            simpa using hE
  · intro hall
    rw [hnav]
    have := navStepLoop_unrecognized otreeUrl net code pid hall max_attempts 0 u st
    simpa using this
  · intro h0r h0w
    rw [hnav, show max_attempts = 29 + 1 from rfl, navStepLoop_succ,
      navIter_unexpected otreeUrl net code pid 0 u st h0 h0r h0w]

/-- C2 counterexample: a fetched page body matching none of the
classification cases (form fields present, embedded payload absent) is
traversed — its URL is fetched, as the action log shows — yet the
participant's navigation is not a hard failure: it silently retries the
cursor URL and ends awaiting action with a phase event emitted. -/
theorem claim_C2_counterexample :
    (netC2 1).body.formFields ≠ [] ∧
    (netC2 1).body.otreeData = none ∧
    (navigate_experiment "http://x" netC2 sampleState "A" 1).acts =
      [Act.get "u", Act.get "http://x/p1", Act.get "u", Act.get "http://x/p2"] ∧
    (navigate_experiment "http://x" netC2 sampleState "A" 1).outcome =
      NavOutcome.awaitingAction ∧
    phaseNums (navigate_experiment "http://x" netC2 sampleState "A" 1).events =
      [3] := by
  refine ⟨by decide, by decide, ?_, ?_, ?_⟩ <;> rfl

theorem claim_C2_page_classification_witness :
    lookupKey sampleState.participant_sessions "A" = some 9 ∧
    lookupKey sampleState.participant_urls "A" = some "u" ∧
    ("u" : String) ≠ "" ∧
    lookupKey sampleState.participant_phases "A" = some 2 ∧
    lookupKey sampleState.participant_connections "A" = some 5 ∧
    (netJoinA 0).okStatus = true ∧
    ((netJoinA 0).isRedirect = true ∧ (netJoinA 1).okStatus = true ∧
      (netJoinA 1).body.formFields ≠ [] ∧ (netJoinA 1).body.otreeData = some 7) ∧
    ((navigate_experiment "http://x" netJoinA sampleState "A" 1).outcome =
        .awaitingAction ∧
      (navigate_experiment "http://x" netJoinA sampleState "A" 1).events =
        [(5, OutMsg.phaseTransition 1 7 (2 + 1) (netJoinA 1).body.formFields)] ∧
      (navigate_experiment "http://x" netJoinA sampleState "A" 1).acts =
        [Act.get "u",
         Act.get (resolveLocation "http://x" ((netJoinA 0).location.getD ""))]) :=
  ⟨rfl, rfl, by decide, rfl, rfl, by decide, ⟨by decide, by decide, by decide, rfl⟩,
    (claim_C2_page_classification "http://x" netJoinA sampleState "A" 1 9 "u" 2 5 7
      rfl rfl (by decide) rfl rfl (by decide)).1
      (by decide) (by decide) (by decide) rfl⟩

theorem infoBranch_terminal (otreeUrl : String) (net : Nat → HttpResponse)
    (code : String) (pid : Int) (k : Nat) (cu nu : String) (st2 : BridgeState)
    (payload : Nat) (acts2 : List Act) (w : Nat)
    (hcon : lookupKey st2.participant_connections code = some w)
    (h2 : (net (k + 2)).isRedirect = true)
    (hloc : (net (k + 2)).location.getD "" ≠ "")
    (hmark : strContains
      (resolveLocation otreeUrl ((net (k + 2)).location.getD ""))
      "OutOfRangeNotification" = true) :
    infoBranch otreeUrl net code pid k cu nu st2 payload acts2 =
      .done st2 [(w, OutMsg.roundResult payload), (w, OutMsg.gameOver)]
        (acts2 ++ [Act.post nu []]) 0 .completed := by
  unfold infoBranch
  dsimp only
  rw [if_pos h2, if_neg (by simpa using hloc), if_pos hmark]
  unfold send_results send_game_completion
  rw [hcon]
  rfl

/-- C8 (amended): the terminal marker is only detected on the redirect that
follows self-advancing an informational page; in that case exactly one
game-over event is emitted (after the informational page's round-result
event) and navigation returns at once, the empty POST being the last
request of the call. A URL containing the terminal marker that the cursor
reaches as a direct redirect target is not detected and triggers no
game-over event (see the counterexample). -/
theorem claim_C8_game_over (otreeUrl : String) (net : Nat → HttpResponse)
    (st : BridgeState) (code : String) (pid : Int) (cid : Nat) (u : String)
    (n w d : Nat)
    (hs : lookupKey st.participant_sessions code = some cid)
    (hu : lookupKey st.participant_urls code = some u)
    (hne : u ≠ "")
    (hph : lookupKey st.participant_phases code = some n)
    (hcon : lookupKey st.participant_connections code = some w)
    (h0 : (net 0).okStatus = true) (h0r : (net 0).isRedirect = true)
    (h1 : (net 1).okStatus = true)
    (hf : (net 1).body.formFields = [])
    (hd : (net 1).body.otreeData = some d)
    (h2 : (net 2).isRedirect = true)
    (hloc : (net 2).location.getD "" ≠ "")
    (hmark : strContains (resolveLocation otreeUrl ((net 2).location.getD ""))
      "OutOfRangeNotification" = true) :
    gameOverCount (navigate_experiment otreeUrl net st code pid).events = 1 ∧
    (navigate_experiment otreeUrl net st code pid).events =
      [(w, OutMsg.roundResult d), (w, OutMsg.gameOver)] ∧
    (navigate_experiment otreeUrl net st code pid).outcome = .completed ∧
    (navigate_experiment otreeUrl net st code pid).acts =
      [Act.get u, Act.get (resolveLocation otreeUrl ((net 0).location.getD "")),
       Act.post (resolveLocation otreeUrl ((net 0).location.getD "")) []] := by
  rw [navigate_eq_loop otreeUrl net st code pid cid u hs hu hne,
    show max_attempts = 29 + 1 from rfl, navStepLoop_succ,
    navIter_info otreeUrl net code pid 0 u st d h0 h0r h1 hf hd,
    infoBranch_terminal otreeUrl net code pid 0 u
      (resolveLocation otreeUrl ((net 0).location.getD ""))
      { st with
        participant_urls := pyInsert st.participant_urls code (resolveLocation otreeUrl ((net 0).location.getD "")),
        form_fields := pyInsert st.form_fields code (net (0 + 1)).body.formFields }
      d
      [Act.get u, Act.get (resolveLocation otreeUrl ((net 0).location.getD ""))]
      w hcon h2 hloc hmark]
  exact ⟨rfl, rfl, rfl, rfl⟩

/-- C8 counterexample: the participant's cursor is set to a URL containing
the terminal marker (reached as a direct redirect target), yet that loop
iteration emits nothing, and across the whole navigation call no game-over
event is emitted at all — navigation in fact continues and ends awaiting
action. -/
theorem claim_C8_counterexample :
    lookupKey (navIter "http://x" netC8 "A" 1 0 "u" sampleState).stateOf.participant_urls
      "A" = some "http://x/OutOfRangeNotification" ∧
    strContains "http://x/OutOfRangeNotification" "OutOfRangeNotification" = true ∧
    (navIter "http://x" netC8 "A" 1 0 "u" sampleState).evsOf = [] ∧
    gameOverCount (navigate_experiment "http://x" netC8 sampleState "A" 1).events
      = 0 ∧
    (navigate_experiment "http://x" netC8 sampleState "A" 1).outcome =
      NavOutcome.awaitingAction := by
  refine ⟨rfl, ?_, rfl, rfl, rfl⟩
  decide

theorem claim_C8_game_over_witness :
    lookupKey sampleState.participant_sessions "A" = some 9 ∧
    ((netC8term 0).isRedirect = true ∧ (netC8term 1).body.otreeData = some 3 ∧
      strContains (resolveLocation "http://x" ((netC8term 2).location.getD ""))
        "OutOfRangeNotification" = true) ∧
    gameOverCount
      (navigate_experiment "http://x" netC8term sampleState "A" 1).events = 1 ∧
    (navigate_experiment "http://x" netC8term sampleState "A" 1).outcome =
      .completed :=
  have h := claim_C8_game_over "http://x" netC8term sampleState "A" 1 9 "u" 2 5 3
    rfl rfl (by decide) rfl rfl (by decide) (by decide) (by decide) (by decide) rfl
    (by decide) (by decide) (by decide)
  ⟨rfl, ⟨by decide, rfl, by decide⟩, h.1, h.2.2.1⟩

theorem cleanup_closes (st : BridgeState) (code : String) (cid : Nat)
    (hne : code ≠ "")
    (hs : lookupKey st.participant_sessions code = some cid) :
    (cleanup_connection st (some code)).closedClients =
      st.closedClients ++ [cid] := by
  simp only [cleanup_connection, if_neg (show ¬(code == "") = true by simpa using hne)]
  rw [hs]

theorem handle_join_failure (otreeUrl : String) (net : Nat → HttpResponse)
    (st0 : BridgeState) (ws clientId : Nat) (code : String) (pid : Int)
    (hcode : code ≠ "") (h0 : (net 0).okStatus = false) :
    (handle_join otreeUrl net st0 ws clientId ⟨some code, some pid⟩).code = "" ∧
    lookupKey (handle_join otreeUrl net st0 ws clientId
      ⟨some code, some pid⟩).state.participant_sessions code = none ∧
    lookupKey (handle_join otreeUrl net st0 ws clientId
      ⟨some code, some pid⟩).state.participant_connections code = none ∧
    lookupKey (handle_join otreeUrl net st0 ws clientId
      ⟨some code, some pid⟩).state.participant_phases code = some 0 ∧
    (handle_join otreeUrl net st0 ws clientId ⟨some code, some pid⟩).state.closedClients
      = st0.closedClients := by
  unfold handle_join
  dsimp only
  rw [if_neg (show ¬(code == "") = true by simpa using hcode)]
  have hinit : initialize_participant otreeUrl net
      { st0 with
        participant_connections := pyInsert st0.participant_connections code ws,
        participant_sessions := pyInsert st0.participant_sessions code clientId,
        participant_phases := pyInsert st0.participant_phases code 0 }
      code pid =
      ⟨{ st0 with
          participant_connections := pyInsert st0.participant_connections code ws,
          participant_sessions := pyInsert st0.participant_sessions code clientId,
          participant_phases := pyInsert st0.participant_phases code 0 },
        [], [Act.get (otreeUrl ++ "/InitializeParticipant/" ++ code)], 0, true⟩ := by
    unfold initialize_participant
    rw [lookup_pyInsert_self]
    unfold continue_to_next_page
    simp [h0]
  rw [hinit]
  dsimp only
  simp only [lookup_pyInsert_self, Option.isSome_some, if_true, ite_true]
  exact ⟨trivial, lookup_eraseKey_self _ _, lookup_eraseKey_self _ _,
    by simpa using lookup_pyInsert_self st0.participant_phases code 0, trivial⟩

/-- C9 counterexample: a join that fails during initialization does not
destroy the session as the claim describes — the returned code is empty,
but the phase-counter registry entry for the participant persists and the
freshly created HTTP client is never closed (the closed-client log stays
empty). -/
theorem claim_C9_counterexample :
    (handle_join "http://x" netFail emptyBridge 5 9 ⟨some "A", some 1⟩).code = "" ∧
    lookupKey (handle_join "http://x" netFail emptyBridge 5 9
      ⟨some "A", some 1⟩).state.participant_phases "A" = some 0 ∧
    (handle_join "http://x" netFail emptyBridge 5 9
      ⟨some "A", some 1⟩).state.closedClients = [] :=
  ⟨rfl, rfl, rfl⟩

/-- C9 (amended): each participant's HTTP client is created and registered
at join, and on connection close or explicit cleanup it is closed exactly
once with every registry entry for the code removed (repeating cleanup
closes nothing further). On join failure, however, only the connection and
client registry entries are deleted: the client is not closed and the
phase-counter entry persists. -/
theorem claim_C9_client_lifecycle :
    (∀ (otreeUrl : String) (net : Nat → HttpResponse) (st0 : BridgeState)
        (ws clientId : Nat) (jm : JoinMsg) (code : String),
      (handle_join otreeUrl net st0 ws clientId jm).code = code → code ≠ "" →
      lookupKey (handle_join otreeUrl net st0 ws clientId
          jm).state.participant_sessions code = some clientId ∧
      (handle_join otreeUrl net st0 ws clientId jm).state.closedClients =
        st0.closedClients) ∧
    (∀ (st : BridgeState) (code : String) (cid : Nat), code ≠ "" →
      lookupKey st.participant_sessions code = some cid →
      (cleanup_connection st (some code)).closedClients =
        st.closedClients ++ [cid] ∧
      cleanup_connection (cleanup_connection st (some code)) (some code) =
        cleanup_connection st (some code) ∧
      lookupKey (cleanup_connection st (some code)).participant_sessions code =
        none) ∧
    (∀ (otreeUrl : String) (net : Nat → HttpResponse) (st0 : BridgeState)
        (ws clientId : Nat) (code : String) (pid : Int),
      code ≠ "" → (net 0).okStatus = false →
      (handle_join otreeUrl net st0 ws clientId ⟨some code, some pid⟩).code = "" ∧
      lookupKey (handle_join otreeUrl net st0 ws clientId
        ⟨some code, some pid⟩).state.participant_sessions code = none ∧
      lookupKey (handle_join otreeUrl net st0 ws clientId
        ⟨some code, some pid⟩).state.participant_phases code = some 0 ∧
      (handle_join otreeUrl net st0 ws clientId
        ⟨some code, some pid⟩).state.closedClients = st0.closedClients) := by
  refine ⟨?_, ?_, ?_⟩
  · intro otreeUrl net st0 ws clientId jm code hcode hne
    obtain ⟨_, _, _, _, j5, j6⟩ :=
      handle_join_success otreeUrl net st0 ws clientId jm code hcode hne
    exact ⟨j5, j6⟩
  · intro st code cid hne hs
    exact ⟨cleanup_closes st code cid hne hs, cleanup_idem st (some code),
      (cleanup_clears st code hne).2.1⟩
  · intro otreeUrl net st0 ws clientId code pid hne h0
    obtain ⟨f1, f2, _, f4, f5⟩ :=
      handle_join_failure otreeUrl net st0 ws clientId code pid hne h0
    exact ⟨f1, f2, f4, f5⟩

theorem claim_C9_client_lifecycle_witness :
    ((handle_join "http://x" netJoinA emptyBridge 5 9 ⟨some "A", some 1⟩).code = "A" ∧
      ("A" : String) ≠ "" ∧
      lookupKey (handle_join "http://x" netJoinA emptyBridge 5 9
        ⟨some "A", some 1⟩).state.participant_sessions "A" = some 9) ∧
    (lookupKey sampleState.participant_sessions "A" = some 9 ∧
      (cleanup_connection sampleState (some "A")).closedClients =
        sampleState.closedClients ++ [9]) ∧
    ((netFail 0).okStatus = false ∧
      (handle_join "http://x" netFail emptyBridge 5 9
        ⟨some "A", some 1⟩).state.closedClients = emptyBridge.closedClients) :=
  ⟨⟨rfl, by decide,
    (claim_C9_client_lifecycle.1 "http://x" netJoinA emptyBridge 5 9
      ⟨some "A", some 1⟩ "A" rfl (by decide)).1⟩,
   ⟨rfl,
    (claim_C9_client_lifecycle.2.1 sampleState "A" 9 (by decide) rfl).1⟩,
   ⟨by decide,
    (claim_C9_client_lifecycle.2.2 "http://x" netFail emptyBridge 5 9 "A" 1
      (by decide) (by decide)).2.2.2⟩⟩

theorem handle_task_isSome (otreeUrl : String) (net : Nat → HttpResponse)
    (st : BridgeState) (ws : Nat) (c : String) (p : Int)
    (vals : List (String × JVal)) :
    (handle_task otreeUrl net st ws ⟨some c, some p, vals⟩).isSome = true := by
  unfold handle_task
  dsimp only
  split_ifs with hc
  · rfl
  · cases hsub : submit_task_to_otree otreeUrl net st c
      (buildTaskData ((lookupKey st.form_fields c).getD []) vals) with
    | none => rfl
    | some r =>
        obtain ⟨b, st1, acts⟩ := r
        cases b <;> rfl

theorem handle_join_failure_frame (otreeUrl : String) (net : Nat → HttpResponse)
    (st0 : BridgeState) (ws clientId : Nat) (code : String) (pid : Int)
    (hcode : code ≠ "") (h0 : (net 0).okStatus = false)
    (A : String) (hA : A ≠ code) :
    lookupKey (handle_join otreeUrl net st0 ws clientId
      ⟨some code, some pid⟩).state.participant_sessions A =
        lookupKey st0.participant_sessions A ∧
    lookupKey (handle_join otreeUrl net st0 ws clientId
      ⟨some code, some pid⟩).state.participant_connections A =
        lookupKey st0.participant_connections A ∧
    lookupKey (handle_join otreeUrl net st0 ws clientId
      ⟨some code, some pid⟩).state.participant_phases A =
        lookupKey st0.participant_phases A ∧
    lookupKey (handle_join otreeUrl net st0 ws clientId
      ⟨some code, some pid⟩).state.participant_urls A =
        lookupKey st0.participant_urls A ∧
    lookupKey (handle_join otreeUrl net st0 ws clientId
      ⟨some code, some pid⟩).state.form_fields A =
        lookupKey st0.form_fields A := by
  unfold handle_join
  dsimp only
  rw [if_neg (show ¬(code == "") = true by simpa using hcode)]
  have hinit : initialize_participant otreeUrl net
      { st0 with
        participant_connections := pyInsert st0.participant_connections code ws,
        participant_sessions := pyInsert st0.participant_sessions code clientId,
        participant_phases := pyInsert st0.participant_phases code 0 }
      code pid =
      ⟨{ st0 with
          participant_connections := pyInsert st0.participant_connections code ws,
          participant_sessions := pyInsert st0.participant_sessions code clientId,
          participant_phases := pyInsert st0.participant_phases code 0 },
        [], [Act.get (otreeUrl ++ "/InitializeParticipant/" ++ code)], 0, true⟩ := by
    unfold initialize_participant
    rw [lookup_pyInsert_self]
    unfold continue_to_next_page
    simp [h0]
  rw [hinit]
  dsimp only
  simp only [lookup_pyInsert_self, Option.isSome_some, if_true, ite_true]
  refine ⟨?_, ?_, ?_, trivial, trivial⟩
  · rw [lookup_eraseKey_other _ _ _ hA, lookup_pyInsert_other _ _ _ _ hA]
  · rw [lookup_eraseKey_other _ _ _ hA, lookup_pyInsert_other _ _ _ _ hA]
  · rw [lookup_pyInsert_other _ _ _ _ hA]

theorem cleanup_empty_code (st : BridgeState) :
    cleanup_connection st (some "") = st := rfl

/-- C10 (amended): on connection close, cleanup is applied exactly to the
participant code returned by the most recently successfully processed
inbound message: a later task message naming a participant code retargets
close-time cleanup to that code, and a later join that fails (returning
the empty string) makes close-time cleanup a no-op. A session successfully
joined earlier on the same connection under a different participant code
keeps its registry entries and its HTTP client open; but a failed join
naming the same code removes that code's connection and client registry
entries itself, so only sessions under other codes are preserved. -/
theorem claim_C10_close_cleanup_target (otreeUrl : String) (st : BridgeState)
    (ws : Nat) :
    (∀ msgs : List InMsg,
      handle_websocket otreeUrl st ws msgs =
        (cleanup_connection (msgs.foldl (wsStep otreeUrl ws) (st, [], none)).1
          (msgs.foldl (wsStep otreeUrl ws) (st, [], none)).2.2,
         (msgs.foldl (wsStep otreeUrl ws) (st, [], none)).2.1,
         (msgs.foldl (wsStep otreeUrl ws) (st, [], none)).2.2)) ∧
    (∀ (msgs : List InMsg) (c : String) (p : Int) (vals : List (String × JVal))
        (net : Nat → HttpResponse),
      (handle_websocket otreeUrl st ws
        (msgs ++ [InMsg.taskMsg ⟨some c, some p, vals⟩ net])).2.2 = some c) ∧
    (∀ (msgs : List InMsg) (c : String) (p : Int) (cid : Nat)
        (net : Nat → HttpResponse), c ≠ "" → (net 0).okStatus = false →
      (handle_websocket otreeUrl st ws
        (msgs ++ [InMsg.joinMsg ⟨some c, some p⟩ cid net])).2.2 = some "" ∧
      (handle_websocket otreeUrl st ws
          (msgs ++ [InMsg.joinMsg ⟨some c, some p⟩ cid net])).1 =
        ((msgs ++ [InMsg.joinMsg ⟨some c, some p⟩ cid net]).foldl
          (wsStep otreeUrl ws) (st, [], none)).1) ∧
    (∀ (cidA cidB : Nat) (netA netB : Nat → HttpResponse) (A B : String)
        (pA pB : Int),
      (handle_join otreeUrl netA st ws cidA ⟨some A, some pA⟩).code = A → A ≠ "" →
      B ≠ "" → A ≠ B → (netB 0).okStatus = false →
      lookupKey (handle_websocket otreeUrl st ws
        [InMsg.joinMsg ⟨some A, some pA⟩ cidA netA,
         InMsg.joinMsg ⟨some B, some pB⟩ cidB netB]).1.participant_sessions A =
        some cidA ∧
      lookupKey (handle_websocket otreeUrl st ws
        [InMsg.joinMsg ⟨some A, some pA⟩ cidA netA,
         InMsg.joinMsg ⟨some B, some pB⟩ cidB netB]).1.participant_connections A =
        some ws ∧
      (handle_websocket otreeUrl st ws
        [InMsg.joinMsg ⟨some A, some pA⟩ cidA netA,
         InMsg.joinMsg ⟨some B, some pB⟩ cidB netB]).1.closedClients =
        st.closedClients) := by
  refine ⟨fun msgs => rfl, ?_, ?_, ?_⟩
  · intro msgs c p vals net
    unfold handle_websocket
    rw [List.foldl_append]
    dsimp only
    obtain ⟨st1, evs1, last1⟩ := msgs.foldl (wsStep otreeUrl ws) (st, [], none)
    rw [List.foldl_cons, List.foldl_nil]
    cases hht : handle_task otreeUrl net st1 ws ⟨some c, some p, vals⟩ with
    | none =>
        have := handle_task_isSome otreeUrl net st1 ws c p vals
        rw [hht] at this
        cases this
    | some v =>
        simp only [wsStep, process_message, hht, Option.map_some]
        rfl
  · intro msgs c p cid net hc h0
    unfold handle_websocket
    rw [List.foldl_append]
    dsimp only
    obtain ⟨st1, evs1, last1⟩ := msgs.foldl (wsStep otreeUrl ws) (st, [], none)
    rw [List.foldl_cons, List.foldl_nil]
    simp only [wsStep, process_message,
      (handle_join_failure otreeUrl net st1 ws cid c p hc h0).1]
    constructor <;> trivial
  · intro cidA cidB netA netB A B pA pB hA hAne hBne hAB hB0
    unfold handle_websocket
    rw [List.foldl_cons, List.foldl_cons, List.foldl_nil]
    simp only [wsStep, process_message]
    obtain ⟨s1, s2, s3, s4, s5⟩ :=
      handle_join_failure_frame otreeUrl netB
        (handle_join otreeUrl netA st ws cidA ⟨some A, some pA⟩).state ws cidB B pB
        hBne hB0 A hAB
    obtain ⟨_, _, _, j4, j5, j6⟩ :=
      handle_join_success otreeUrl netA st ws cidA ⟨some A, some pA⟩ A hA hAne
    obtain ⟨f1, _, _, _, f5⟩ :=
      handle_join_failure otreeUrl netB
        (handle_join otreeUrl netA st ws cidA ⟨some A, some pA⟩).state ws cidB B pB
        hBne hB0
    rw [f1, cleanup_empty_code]
    exact ⟨s1.trans j5, s2.trans j4, f5.trans j6⟩

/-- C10 counterexample: the claim says a session joined earlier on the same
connection keeps its registry entries and open client when a later message
fails. But a second join naming the SAME participant code that fails during
initialization deletes that code's connection and client registry entries
itself (the exception path of `handle_join`), while the original HTTP
client is never closed; close-time cleanup then runs on the empty code and
removes nothing further. -/
theorem claim_C10_counterexample :
    (handle_websocket "http://x" emptyBridge 5
      [InMsg.joinMsg ⟨some "A", some 1⟩ 9 netJoinA,
       InMsg.joinMsg ⟨some "A", some 2⟩ 10 netFail]).2.2 = some "" ∧
    lookupKey (handle_websocket "http://x" emptyBridge 5
      [InMsg.joinMsg ⟨some "A", some 1⟩ 9 netJoinA,
       InMsg.joinMsg ⟨some "A", some 2⟩ 10 netFail]).1.participant_sessions
      "A" = none ∧
    lookupKey (handle_websocket "http://x" emptyBridge 5
      [InMsg.joinMsg ⟨some "A", some 1⟩ 9 netJoinA,
       InMsg.joinMsg ⟨some "A", some 2⟩ 10 netFail]).1.participant_connections
      "A" = none ∧
    (handle_websocket "http://x" emptyBridge 5
      [InMsg.joinMsg ⟨some "A", some 1⟩ 9 netJoinA,
       InMsg.joinMsg ⟨some "A", some 2⟩ 10 netFail]).1.closedClients = [] :=
  ⟨rfl, rfl, rfl, rfl⟩

theorem claim_C10_close_cleanup_target_witness :
    ("A" : String) ≠ "" ∧ ("B" : String) ≠ "" ∧ ("A" : String) ≠ "B" ∧
    (netFail 0).okStatus = false ∧
    (handle_join "http://x" netJoinA emptyBridge 5 9
      ⟨some "A", some 1⟩).code = "A" ∧
    ((handle_websocket "http://x" emptyBridge 5
        ([] ++ [InMsg.joinMsg ⟨some "A", some 1⟩ 9 netFail])).2.2 = some "" ∧
      (handle_websocket "http://x" emptyBridge 5
          ([] ++ [InMsg.joinMsg ⟨some "A", some 1⟩ 9 netFail])).1 =
        (([] ++ [InMsg.joinMsg ⟨some "A", some 1⟩ 9 netFail]).foldl
          (wsStep "http://x" 5) (emptyBridge, [], none)).1) ∧
    (lookupKey (handle_websocket "http://x" emptyBridge 5
        [InMsg.joinMsg ⟨some "A", some 1⟩ 9 netJoinA,
         InMsg.joinMsg ⟨some "B", some 2⟩ 10 netFail]).1.participant_sessions
        "A" = some 9 ∧
      lookupKey (handle_websocket "http://x" emptyBridge 5
        [InMsg.joinMsg ⟨some "A", some 1⟩ 9 netJoinA,
         InMsg.joinMsg ⟨some "B", some 2⟩ 10 netFail]).1.participant_connections
        "A" = some 5 ∧
      (handle_websocket "http://x" emptyBridge 5
        [InMsg.joinMsg ⟨some "A", some 1⟩ 9 netJoinA,
         InMsg.joinMsg ⟨some "B", some 2⟩ 10 netFail]).1.closedClients =
        emptyBridge.closedClients) :=
  ⟨by decide, by decide, by decide, rfl, rfl,
   (claim_C10_close_cleanup_target "http://x" emptyBridge 5).2.2.1
     [] "A" 1 9 netFail (by decide) rfl,
   (claim_C10_close_cleanup_target "http://x" emptyBridge 5).2.2.2
     9 10 netJoinA netFail "A" "B" 1 2 rfl (by decide) (by decide)
     (by decide) rfl⟩
